import Mathlib

/-!
Shallow embedding of the restaurant reservation system
(`src/Finals-Interprog.cpp`): the validation layer and the
`ReservationManager` reservation store, together with proofs of the
specified properties.

Strings are Lean `String`s (lists of characters); C++ `int` values that
may be negative or carry the `-1` sentinel are embedded as `Int`; the
reservation-id counter, which starts at 1 and is only ever incremented,
is embedded as `Nat`.
-/

namespace Finals

/-- Reference date constant `CURRENT_DATE` from the source. -/
def CURRENT_DATE : String := "2025-05-19"

/-- Reference hour constant `CURRENT_HOUR` from the source. -/
def CURRENT_HOUR : Nat := 22

/-- Reference minute constant `CURRENT_MINUTE` from the source. -/
def CURRENT_MINUTE : Nat := 19

/-- Character of the string at a position (a total version of indexing;
every use below is guarded by a length check). -/
def charAt (s : String) (i : Nat) : Char := s.data.getD i ' '

/-- Numeric value of a digit character, as computed by the C++ parsing
(`c - '0'`). -/
def digitVal (c : Char) : Nat := c.toNat - '0'.toNat

/-- Lexicographic comparison of character lists, embedding the
byte-wise `operator<` of `std::string` (all strings involved are
ASCII). -/
def charListLt : List Char → List Char → Bool
  | _, [] => false
  | [], _ :: _ => true
  | a :: as, b :: bs =>
    if a.toNat < b.toNat then true
    else if b.toNat < a.toNat then false
    else charListLt as bs

/-- Lexicographic `<` on strings (embedding `std::string::operator<`). -/
def strLt (a b : String) : Bool := charListLt a.data b.data

/-- `validatePhoneNumber`: full match against `\d{3}-\d{3}-\d{4}`,
expressed as a fixed-width positional check. -/
def validatePhoneNumber (phone : String) : Bool :=
  phone.length == 12 &&
  (charAt phone 0).isDigit && (charAt phone 1).isDigit && (charAt phone 2).isDigit &&
  charAt phone 3 == '-' &&
  (charAt phone 4).isDigit && (charAt phone 5).isDigit && (charAt phone 6).isDigit &&
  charAt phone 7 == '-' &&
  (charAt phone 8).isDigit && (charAt phone 9).isDigit &&
  (charAt phone 10).isDigit && (charAt phone 11).isDigit

/-- The regex `\d{4}-\d{2}-\d{2}` of `validateDate` as a fixed-width
positional check. -/
def dateShape (d : String) : Bool :=
  d.length == 10 &&
  (charAt d 0).isDigit && (charAt d 1).isDigit && (charAt d 2).isDigit &&
  (charAt d 3).isDigit &&
  charAt d 4 == '-' &&
  (charAt d 5).isDigit && (charAt d 6).isDigit &&
  charAt d 7 == '-' &&
  (charAt d 8).isDigit && (charAt d 9).isDigit

/-- Month field parsed by `sscanf("%d-%d-%d")` once the shape check has
passed (two zero-padded digits). -/
def dateMonth (d : String) : Nat := 10 * digitVal (charAt d 5) + digitVal (charAt d 6)

/-- Day field parsed by `sscanf("%d-%d-%d")` once the shape check has
passed (two zero-padded digits). -/
def dateDay (d : String) : Nat := 10 * digitVal (charAt d 8) + digitVal (charAt d 9)

/-- `validateDate`: regex shape, month/day range check, then rejection
of dates lexicographically earlier than `CURRENT_DATE`. The parsed
fields are natural numbers, so the source's `month < 1` test becomes
`month = 0` and likewise for the day. -/
def validateDate (date : String) : Bool :=
  if dateShape date then
    if dateMonth date < 1 || dateMonth date > 12
        || dateDay date < 1 || dateDay date > 31 then false
    else if strLt date CURRENT_DATE then false
    else true
  else false

/-- The regex `\d{2}:\d{2}` of `validateTime` as a fixed-width
positional check. -/
def timeShape (t : String) : Bool :=
  t.length == 5 &&
  (charAt t 0).isDigit && (charAt t 1).isDigit &&
  charAt t 2 == ':' &&
  (charAt t 3).isDigit && (charAt t 4).isDigit

/-- Hour field parsed by `sscanf("%d:%d")` once the shape check has
passed. -/
def timeHour (t : String) : Nat := 10 * digitVal (charAt t 0) + digitVal (charAt t 1)

/-- Minute field parsed by `sscanf("%d:%d")` once the shape check has
passed. -/
def timeMinute (t : String) : Nat := 10 * digitVal (charAt t 3) + digitVal (charAt t 4)

/-- `validateTime`: regex shape, hour/minute range check (the parsed
values are naturals, so the source's `hour < 0` and `minute < 0` tests
are vacuous), then, on the reference date only, rejection of times not
strictly later than the reference time. -/
def validateTime (time date : String) : Bool :=
  if timeShape time then
    if timeHour time > 23 || timeMinute time > 59 then false
    else if date == CURRENT_DATE
        && (timeHour time < CURRENT_HOUR
            || (timeHour time == CURRENT_HOUR && timeMinute time <= CURRENT_MINUTE)) then
      false
    else true
  else false

/-- `validatePartySize`: the size must be at least 1. -/
def validatePartySize (size : Int) : Bool := size >= 1

/-- Tail of the reservation-id regex after `ID `: zero or more digits
followed by a final `A`. -/
def digitsThenA : List Char → Bool
  | [] => false
  | c :: cs =>
    match cs with
    | [] => c == 'A'
    | _ :: _ => c.isDigit && digitsThenA cs

/-- `validateReservationId`: full match against `ID \d+A`. -/
def validateReservationId (id : String) : Bool :=
  match id.data with
  | 'I' :: 'D' :: ' ' :: c :: cs => c.isDigit && digitsThenA (c :: cs)
  | _ => false

-- -------- Reservation record and manager state --------

/-- The `Reservation` struct. -/
structure Reservation where
  id : String
  customerName : String
  phoneNumber : String
  partySize : Int
  date : String
  time : String
  tableNumber : Int
deriving DecidableEq, Repr

/-- The mutable state of the `ReservationManager` singleton: the
table-occupancy vector (`true` = available), the reservation list, and
the id counter. -/
structure ManagerState where
  tables : List Bool
  reservations : List Reservation
  nextReservationId : Nat
deriving DecidableEq, Repr

/-- The constructor's initial state: ten available tables, no
reservations, counter 1. -/
def initState : ManagerState :=
  { tables := List.replicate 10 true, reservations := [], nextReservationId := 1 }

/-- The loop predicate used by cancel/update to locate a reservation:
the id and the customer name must both match. -/
def matchRes (r : Reservation) (id name : String) : Bool :=
  r.id == id && r.customerName == name

/-- First reservation matching an (id, customerName) pair, as found by
the source's search loops (which `break` on the first hit). -/
def findRes (l : List Reservation) (id name : String) : Option Reservation :=
  l.find? (fun r => matchRes r id name)

/-- `reservationIdExists`: some reservation carries this id, excluding
ids equal to `excludeId`. -/
def reservationIdExists (l : List Reservation) (id excludeId : String) : Bool :=
  l.any (fun r => r.id == id && r.id != excludeId)

-- -------- Identifier generation --------

/-- Decimal digit character, as produced by `std::to_string`. -/
def natDigitChar (n : Nat) : Char := Char.ofNat (48 + n)

/-- Decimal digits, most significant first, with explicit fuel so that
the definition is structurally recursive (the fuel `n + 1` used by
`natDigits` is always sufficient). -/
def natDigitsAux : Nat → Nat → List Char
  | 0, _ => []
  | fuel + 1, n =>
    if n < 10 then [natDigitChar n]
    else natDigitsAux fuel (n / 10) ++ [natDigitChar (n % 10)]

/-- Decimal digits of a natural number, most significant first
(embedding `std::to_string` on the nonnegative values the counter
takes). -/
def natDigits (n : Nat) : List Char := natDigitsAux (n + 1) n

theorem natDigitsAux_stable :
    ∀ fuel fuel' n : Nat, n < fuel → n < fuel' →
      natDigitsAux fuel n = natDigitsAux fuel' n := by
  intro fuel
  induction fuel with
  | zero => intro fuel' n h; omega
  | succ f ih =>
    intro fuel' n h h'
    cases fuel' with
    | zero => omega
    | succ f' =>
      by_cases h10 : n < 10
      · simp [natDigitsAux, h10]
      · have hd : n / 10 < n := Nat.div_lt_self (by omega) (by omega)
        simp only [natDigitsAux, if_neg h10]
        rw [ih f' (n / 10) (by omega) (by omega)]

/-- The recursive unfolding of `natDigits`, mirroring the digit loop of
`std::to_string`. -/
theorem natDigits_eq (n : Nat) :
    natDigits n = if n < 10 then [natDigitChar n]
      else natDigits (n / 10) ++ [natDigitChar (n % 10)] := by
  show natDigitsAux (n + 1) n = _
  by_cases h10 : n < 10
  · simp [natDigitsAux, h10]
  · have hd : n / 10 < n := Nat.div_lt_self (by omega) (by omega)
    simp only [natDigitsAux, if_neg h10]
    rw [natDigitsAux_stable n (n / 10 + 1) (n / 10) (by omega) (by omega)]
    rfl

/-- `std::to_string` on the counter. -/
def natToString (n : Nat) : String := String.mk (natDigits n)

/-- The candidate identifier `"ID " + to_string(n) + "A"`. -/
def mkId (n : Nat) : String := "ID " ++ natToString n ++ "A"

/-- The do/while generation loop of `reserveTable`, with explicit fuel:
try `mkId counter`; while it collides with an existing reservation id,
advance the counter and retry. Returns the chosen id together with the
counter value after the final post-increment. `genId` supplies fuel
`l.length + 1`, which is proved sufficient below (pigeonhole), so the
fuel-exhausted branch is unreachable. -/
def genIdAux (l : List Reservation) : Nat → Nat → String × Nat
  | 0, counter => (mkId counter, counter + 1)
  | fuel + 1, counter =>
    if reservationIdExists l (mkId counter) "" then genIdAux l fuel (counter + 1)
    else (mkId counter, counter + 1)

/-- Identifier generation: the do/while loop of `reserveTable`. -/
def genId (l : List Reservation) (counter : Nat) : String × Nat :=
  genIdAux l (l.length + 1) counter

-- -------- Store operations --------

/-- Exception messages thrown by the store, in source order. -/
def msgBadPhone : String := "Invalid phone number format. Use XXX-XXX-XXXX."

def msgBadPartySize : String := "Party size must be at least 1."

def msgBadDate : String := "Invalid date format (use YYYY-MM-DD) or date is in the past."

def msgBadTime : String := "Invalid time format (use HH:MM) or time is in the past for today."

def msgBadTableNumber : String := "Invalid table number. Must be between 1 and 10."

def msgTableBooked : String := "Selected table is already booked."

def msgBadId : String := "Invalid reservation ID format. Use 'ID <number>A', e.g., ID 1A."

def msgNoCancel : String := "No reservation to cancel."

def msgNoUpdate : String := "No reservation to update."

def msgBadNewId : String := "Invalid new reservation ID format. Use 'ID <number>A', e.g., ID 1A."

def msgIdConflict : String := "New reservation ID already exists. Choose a different ID."

def msgBadNewTableIndex : String := "Invalid new table index."

/-- `true` exactly on the thrown-exception outcome. -/
def isErr {α : Type} : Except String α → Bool
  | .error _ => true
  | .ok _ => false

instance exceptDecEq {ε α : Type} [DecidableEq ε] [DecidableEq α] :
    DecidableEq (Except ε α) := fun x y =>
  match x, y with
  | .ok a, .ok b =>
    if h : a = b then isTrue (by rw [h]) else isFalse (by intro hc; cases hc; exact h rfl)
  | .error a, .error b =>
    if h : a = b then isTrue (by rw [h]) else isFalse (by intro hc; cases hc; exact h rfl)
  | .ok _, .error _ => isFalse (by intro hc; cases hc)
  | .error _, .ok _ => isFalse (by intro hc; cases hc)

/-- Number of available tables. -/
def countAvail (tables : List Bool) : Nat := tables.count true

/-- `ReservationManager::reserveTable`. The result pairs the state the
manager is left in (the manager outlives a thrown exception) with
either the returned table index or the exception message. -/
def reserveTable (s : ManagerState) (customerName phoneNumber : String)
    (partySize : Int) (date time : String) (tableNumber : Int) :
    ManagerState × Except String Int :=
  if !validatePhoneNumber phoneNumber then (s, .error msgBadPhone)
  else if !validatePartySize partySize then (s, .error msgBadPartySize)
  else if !validateDate date then (s, .error msgBadDate)
  else if !validateTime time date then (s, .error msgBadTime)
  else if tableNumber < 0 || tableNumber ≥ (s.tables.length : Int) then
    (s, .error msgBadTableNumber)
  else if !(s.tables.getD tableNumber.toNat false) then (s, .error msgTableBooked)
  else
    let tables' := s.tables.set tableNumber.toNat false
    let idc := genId s.reservations s.nextReservationId
    ({ tables := tables',
       reservations := s.reservations ++
         [⟨idc.1, customerName, phoneNumber, partySize, date, time, tableNumber⟩],
       nextReservationId := idc.2 }, .ok tableNumber)

/-- `ReservationManager::cancelReservation`: locate the first (id,
name) match to obtain its table, free that table, then erase every
(id, name) match. -/
def cancelReservation (s : ManagerState) (reservationId customerName : String) :
    ManagerState × Except String Unit :=
  if !validateReservationId reservationId then (s, .error msgBadId)
  else
    match findRes s.reservations reservationId customerName with
    | none => (s, .error msgNoCancel)
    | some r0 =>
      ({ tables := s.tables.set r0.tableNumber.toNat true,
         reservations := s.reservations.filter
           (fun r => !matchRes r reservationId customerName),
         nextReservationId := s.nextReservationId }, .ok ())

/-- The in-place field replacement performed by the final loop of
`updateReservation` on the matched record (`"0"`/`0` are the
"unchanged" sentinels; the table number is always overwritten with the
final index computed beforehand). -/
def applyFieldUpdate (r : Reservation) (newId newName newPhone : String)
    (newPartySize : Int) (newDate newTime : String) (finalTable : Int) : Reservation :=
  { id := if newId != "0" then newId else r.id
    customerName := if newName != "0" then newName else r.customerName
    phoneNumber := if newPhone != "0" then newPhone else r.phoneNumber
    partySize := if newPartySize != 0 then newPartySize else r.partySize
    date := if newDate != "0" then newDate else r.date
    time := if newTime != "0" then newTime else r.time
    tableNumber := finalTable }

/-- Replace the first (id, name) match in the list by its image under
`f`, as the source's update loop (which `break`s after the first
match) does. -/
def updateFirst (l : List Reservation) (id name : String)
    (f : Reservation → Reservation) : List Reservation :=
  match l with
  | [] => []
  | r :: rs => if matchRes r id name then f r :: rs else r :: updateFirst rs id name f

/-- `ReservationManager::updateReservation`. Validation follows the
source order; the release-then-claim sequence on the table bitmap is
embedded step by step, including the revert write
`tables[oldTableIndex] = false` on the claim failure. -/
def updateReservation (s : ManagerState)
    (reservationId customerName newId newName newPhone : String)
    (newPartySize : Int) (newDate newTime : String) (newTableIndex : Int) :
    ManagerState × Except String Unit :=
  if !validateReservationId reservationId then (s, .error msgBadId)
  else
    match findRes s.reservations reservationId customerName with
    | none => (s, .error msgNoUpdate)
    | some r0 =>
      if newId != "0" && !validateReservationId newId then (s, .error msgBadNewId)
      else if newId != "0" && reservationIdExists s.reservations newId reservationId then
        (s, .error msgIdConflict)
      else if newPhone != "0" && !validatePhoneNumber newPhone then (s, .error msgBadPhone)
      else if newPartySize != 0 && !validatePartySize newPartySize then
        (s, .error msgBadPartySize)
      else if newDate != "0" && !validateDate newDate then (s, .error msgBadDate)
      else if newTime != "0"
          && !validateTime newTime (if newDate != "0" then newDate else CURRENT_DATE) then
        (s, .error msgBadTime)
      else
        let oldTableIndex := r0.tableNumber
        if newTableIndex ≠ -1 then
          if newTableIndex < 0 || newTableIndex ≥ (s.tables.length : Int) then
            (s, .error msgBadNewTableIndex)
          else
            let t1 := s.tables.set oldTableIndex.toNat true
            if !(t1.getD newTableIndex.toNat false) then
              ({ s with tables := t1.set oldTableIndex.toNat false }, .error msgTableBooked)
            else
              ({ tables := t1.set newTableIndex.toNat false,
                 reservations := updateFirst s.reservations reservationId customerName
                   (fun r => applyFieldUpdate r newId newName newPhone newPartySize
                     newDate newTime newTableIndex),
                 nextReservationId := s.nextReservationId }, .ok ())
        else
          ({ s with
             reservations := updateFirst s.reservations reservationId customerName
               (fun r => applyFieldUpdate r newId newName newPhone newPartySize
                 newDate newTime oldTableIndex) }, .ok ())

-- -------- Operation sequences and the store invariant --------

/-- A call to one of the three mutating store operations. -/
inductive Op where
  | reserve (customerName phoneNumber : String) (partySize : Int)
      (date time : String) (tableNumber : Int)
  | cancel (reservationId customerName : String)
  | update (reservationId customerName newId newName newPhone : String)
      (newPartySize : Int) (newDate newTime : String) (newTableIndex : Int)

/-- State the manager is left in after one operation (whether it
succeeded or threw). -/
def applyOp (s : ManagerState) : Op → ManagerState
  | .reserve a b c d e f => (reserveTable s a b c d e f).1
  | .cancel a b => (cancelReservation s a b).1
  | .update a b c d e f g h i => (updateReservation s a b c d e f g h i).1

/-- State after a sequence of operations from the initial state (the
head of the list is the most recent operation). -/
def applyOps : List Op → ManagerState
  | [] => initState
  | op :: ops => applyOp (applyOps ops) op

/-- The store invariant: ten tables; a table is available exactly when
no active reservation references it; no two active reservations share
a table; no two share an id; every referenced table index is in
range. -/
def Inv (s : ManagerState) : Prop :=
  s.tables.length = 10 ∧
  (∀ T < s.tables.length,
    (s.tables.getD T false = true ↔ ∀ r ∈ s.reservations, r.tableNumber ≠ (T : Int))) ∧
  List.Pairwise (fun a b : Reservation => a.tableNumber ≠ b.tableNumber) s.reservations ∧
  List.Pairwise (fun a b : Reservation => a.id ≠ b.id) s.reservations ∧
  (∀ r ∈ s.reservations, 0 ≤ r.tableNumber ∧ r.tableNumber < (s.tables.length : Int))

/-- Boolean pairwise check over a list. -/
def pairwiseB (p : α → α → Bool) : List α → Bool
  | [] => true
  | x :: xs => xs.all (fun y => p x y) && pairwiseB p xs

theorem pairwiseB_iff {p : α → α → Bool} :
    ∀ l : List α, pairwiseB p l = true ↔ List.Pairwise (fun a b => p a b = true) l := by
  intro l
  induction l with
  | nil => simp [pairwiseB]
  | cons x xs ih => simp [pairwiseB, ih]

/-- Executable form of the store invariant. -/
def invB (s : ManagerState) : Bool :=
  decide (s.tables.length = 10) &&
  (List.range s.tables.length).all (fun T =>
    decide (s.tables.getD T false = true ↔
      ∀ r ∈ s.reservations, r.tableNumber ≠ (T : Int))) &&
  pairwiseB (fun a b : Reservation => a.tableNumber != b.tableNumber) s.reservations &&
  pairwiseB (fun a b : Reservation => a.id != b.id) s.reservations &&
  decide (∀ r ∈ s.reservations, 0 ≤ r.tableNumber ∧ r.tableNumber < (s.tables.length : Int))

theorem inv_iff_invB (s : ManagerState) : Inv s ↔ invB s = true := by
  unfold Inv invB
  simp only [Bool.and_eq_true, decide_eq_true_eq, List.all_eq_true, List.mem_range,
    pairwiseB_iff, bne_iff_ne, ne_eq, and_assoc]

instance (s : ManagerState) : Decidable (Inv s) :=
  decidable_of_iff (invB s = true) (inv_iff_invB s).symm

-- -------- List helper lemmas --------

theorem getD_set_eq (l : List α) (i : Nat) (v d : α) (h : i < l.length) :
    (l.set i v).getD i d = v := by
  induction l generalizing i with
  | nil => simp at h
  | cons x xs ih =>
    cases i with
    | zero => rfl
    | succ j => simpa using ih j (by simpa using h)

theorem getD_set_ne (l : List α) (i j : Nat) (v d : α) (h : i ≠ j) :
    (l.set i v).getD j d = l.getD j d := by
  induction l generalizing i j with
  | nil => rfl
  | cons x xs ih =>
    cases i with
    | zero =>
      cases j with
      | zero => exact absurd rfl h
      | succ j' => rfl
    | succ i' =>
      cases j with
      | zero => rfl
      | succ j' => simpa using ih i' j' (by omega)

theorem set_getD_self (l : List α) (i : Nat) (v d : α) (h : l.getD i d = v) :
    l.set i v = l := by
  induction l generalizing i with
  | nil => rfl
  | cons x xs ih =>
    cases i with
    | zero => simp_all [List.getD]
    | succ j => simp_all [List.getD]

theorem count_set_true (l : List Bool) (k : Nat) (h : l.getD k false = true) :
    (l.set k false).count true + 1 = l.count true := by
  induction l generalizing k with
  | nil => simp [List.getD] at h
  | cons x xs ih =>
    cases k with
    | zero =>
      have hx : x = true := h
      subst hx
      simp [List.count_cons]
    | succ j =>
      have := ih j (by simpa [List.getD] using h)
      simp only [List.set, List.count_cons]
      omega

-- -------- Digit-string lemmas --------

theorem natDigitChar_isDigit (d : Nat) (h : d < 10) : (natDigitChar d).isDigit = true := by
  interval_cases d <;> decide

theorem digitVal_natDigitChar (d : Nat) (h : d < 10) : digitVal (natDigitChar d) = d := by
  interval_cases d <;> decide

theorem natDigits_ne_nil (n : Nat) : natDigits n ≠ [] := by
  rw [natDigits_eq]
  split <;> simp

theorem natDigits_all_digit (n : Nat) : ∀ c ∈ natDigits n, c.isDigit = true := by
  induction n using Nat.strong_induction_on with
  | _ n ih =>
    rw [natDigits_eq]
    split
    · intro c hc
      simp only [List.mem_singleton] at hc
      subst hc
      exact natDigitChar_isDigit n (by omega)
    · intro c hc
      rcases List.mem_append.mp hc with h | h
      · exact ih (n / 10) (Nat.div_lt_self (by omega) (by omega)) c h
      · simp only [List.mem_singleton] at h
        subst h
        exact natDigitChar_isDigit (n % 10) (Nat.mod_lt _ (by omega))

/-- Left inverse of the digit rendering: decimal decoding. -/
def decodeDigits (l : List Char) : Nat := l.foldl (fun acc c => acc * 10 + digitVal c) 0

theorem decodeDigits_natDigits (n : Nat) : decodeDigits (natDigits n) = n := by
  induction n using Nat.strong_induction_on with
  | _ n ih =>
    rw [natDigits_eq]
    split
    · simp [decodeDigits, digitVal_natDigitChar n (by omega)]
    · rename_i h10
      have hd : n / 10 < n := Nat.div_lt_self (by omega) (by omega)
      have := ih (n / 10) hd
      simp only [decodeDigits, List.foldl_append, List.foldl_cons, List.foldl_nil] at this ⊢
      rw [this, digitVal_natDigitChar (n % 10) (Nat.mod_lt _ (by omega))]
      omega

theorem natDigits_injective : Function.Injective natDigits := by
  intro a b h
  have : decodeDigits (natDigits a) = decodeDigits (natDigits b) := by rw [h]
  rwa [decodeDigits_natDigits, decodeDigits_natDigits] at this

-- -------- Generated identifier lemmas --------

theorem mkId_data (n : Nat) : (mkId n).data = 'I' :: 'D' :: ' ' :: (natDigits n ++ ['A']) := by
  simp [mkId, natToString, String.data_append]

theorem mkId_injective : Function.Injective mkId := by
  intro a b h
  have hd : (mkId a).data = (mkId b).data := by rw [h]
  rw [mkId_data, mkId_data] at hd
  simp only [List.cons.injEq, true_and] at hd
  exact natDigits_injective (List.append_cancel_right hd)

theorem mkId_ne_empty (n : Nat) : mkId n ≠ "" := by
  intro h
  have := congrArg String.data h
  rw [mkId_data] at this
  simp at this

theorem digitsThenA_append_A (l : List Char) (h : ∀ c ∈ l, c.isDigit = true) :
    digitsThenA (l ++ ['A']) = true := by
  induction l with
  | nil => decide
  | cons c cs ih =>
    cases cs with
    | nil =>
      simp only [List.nil_append, List.cons_append]
      show (c.isDigit && digitsThenA ['A']) = true
      simp [h c (by simp), digitsThenA]
    | cons c' cs' =>
      show (c.isDigit && digitsThenA ((c' :: cs') ++ ['A'])) = true
      rw [ih (fun x hx => h x (by simp [hx]))]
      simp [h c (by simp)]

theorem mkId_valid (n : Nat) : validateReservationId (mkId n) = true := by
  obtain ⟨c, cs, hcs⟩ : ∃ c cs, natDigits n = c :: cs := by
    cases h : natDigits n with
    | nil => exact absurd h (natDigits_ne_nil n)
    | cons c cs => exact ⟨c, cs, rfl⟩
  have hdig := natDigits_all_digit n
  rw [hcs] at hdig
  unfold validateReservationId
  rw [mkId_data, hcs]
  simp only [List.cons_append]
  rw [show (c :: (cs ++ ['A'])) = (c :: cs) ++ ['A'] by simp]
  rw [digitsThenA_append_A (c :: cs) hdig]
  simp [hdig c (by simp)]

theorem reservationIdExists_false_iff (l : List Reservation) (id excl : String) :
    reservationIdExists l id excl = false ↔ ∀ r ∈ l, ¬(r.id = id ∧ r.id ≠ excl) := by
  constructor
  · intro h r hr hcon
    have hp : (r.id == id && r.id != excl) = true := by
      simp only [Bool.and_eq_true, beq_iff_eq, bne_iff_ne, ne_eq]
      exact hcon
    have h2 : reservationIdExists l id excl = true := by
      unfold reservationIdExists
      rw [List.any_eq_true]
      exact ⟨r, hr, hp⟩
    rw [h] at h2
    exact Bool.false_ne_true h2
  · intro h
    by_contra hne
    have hne : reservationIdExists l id excl = true := by
      cases hb : reservationIdExists l id excl
      · exact absurd hb hne
      · rfl
    unfold reservationIdExists at hne
    rw [List.any_eq_true] at hne
    obtain ⟨r, hr, hp⟩ := hne
    simp only [Bool.and_eq_true, beq_iff_eq, bne_iff_ne, ne_eq] at hp
    exact h r hr hp

theorem genIdAux_spec (l : List Reservation) :
    ∀ fuel counter : Nat,
      (∃ k, k < fuel ∧ reservationIdExists l (mkId (counter + k)) "" = false) →
      ∃ m, counter ≤ m ∧ genIdAux l fuel counter = (mkId m, m + 1) ∧
        reservationIdExists l (mkId m) "" = false := by
  intro fuel
  induction fuel with
  | zero => rintro counter ⟨k, hk, -⟩; omega
  | succ f ih =>
    intro counter ⟨k, hk, hfresh⟩
    by_cases h : reservationIdExists l (mkId counter) "" = true
    · have hk0 : k ≠ 0 := by
        rintro rfl
        rw [Nat.add_zero] at hfresh
        rw [h] at hfresh
        exact Bool.noConfusion hfresh
      obtain ⟨m, hm1, hm2, hm3⟩ := ih (counter + 1)
        ⟨k - 1, by omega, by rw [show counter + 1 + (k - 1) = counter + k by omega]; exact hfresh⟩
      refine ⟨m, by omega, ?_, hm3⟩
      rw [genIdAux, if_pos h]
      exact hm2
    · refine ⟨counter, le_refl _, ?_, by simpa using h⟩
      rw [genIdAux, if_neg h]

theorem exists_fresh_candidate (l : List Reservation) (counter : Nat) :
    ∃ k, k < l.length + 1 ∧ reservationIdExists l (mkId (counter + k)) "" = false := by
  by_contra hcon
  push_neg at hcon
  have hall : ∀ k < l.length + 1, ∃ r ∈ l, r.id = mkId (counter + k) := by
    intro k hk
    have := hcon k hk
    rw [Bool.ne_false_iff] at this
    unfold reservationIdExists at this
    rw [List.any_eq_true] at this
    obtain ⟨r, hr, hp⟩ := this
    simp only [Bool.and_eq_true, beq_iff_eq] at hp
    exact ⟨r, hr, hp.1⟩
  set M : List String := (List.range (l.length + 1)).map (fun k => mkId (counter + k)) with hM
  have hnd : M.Nodup := by
    refine List.Nodup.map ?_ (List.nodup_range _)
    intro a b hab
    have := mkId_injective hab
    omega
  have hsub : M ⊆ l.map (fun r => r.id) := by
    intro x hx
    rw [hM, List.mem_map] at hx
    obtain ⟨k, hk, rfl⟩ := hx
    rw [List.mem_range] at hk
    obtain ⟨r, hr, hid⟩ := hall k hk
    rw [List.mem_map]
    exact ⟨r, hr, hid⟩
  have hlen : M.length ≤ (l.map (fun r => r.id)).length :=
    (List.subperm_of_subset hnd hsub).length_le
  simp [hM] at hlen

/-- Specification of the identifier-generation loop: the returned id is
`mkId m` for some counter value `m` at least the initial one, the
stored counter is `m + 1`, and the id collides with no existing
reservation id. -/
theorem genId_spec (l : List Reservation) (counter : Nat) :
    ∃ m, counter ≤ m ∧ genId l counter = (mkId m, m + 1) ∧
      ∀ r ∈ l, r.id ≠ mkId m := by
  obtain ⟨m, hm1, hm2, hm3⟩ := genIdAux_spec l (l.length + 1) counter
    (exists_fresh_candidate l counter)
  refine ⟨m, hm1, hm2, ?_⟩
  intro r hr hid
  rw [reservationIdExists_false_iff] at hm3
  exact hm3 r hr ⟨hid, by rw [hid]; exact mkId_ne_empty m⟩

-- -------- Lookup and first-match update lemmas --------

theorem matchRes_iff (r : Reservation) (id name : String) :
    matchRes r id name = true ↔ r.id = id ∧ r.customerName = name := by
  simp [matchRes]

theorem findRes_mem {l : List Reservation} {id name : String} {r0 : Reservation}
    (h : findRes l id name = some r0) : r0 ∈ l :=
  List.mem_of_find?_eq_some h

theorem findRes_none_iff (l : List Reservation) (id name : String) :
    findRes l id name = none ↔ ∀ r ∈ l, ¬(r.id = id ∧ r.customerName = name) := by
  unfold findRes
  rw [List.find?_eq_none]
  constructor
  · intro h r hr hcon
    have := h r hr
    rw [matchRes_iff] at this
    exact this hcon
  · intro h r hr
    rw [matchRes_iff]
    exact h r hr

theorem findRes_decomp {l : List Reservation} {id name : String} {r0 : Reservation}
    (h : findRes l id name = some r0) :
    ∃ l₁ l₂, l = l₁ ++ r0 :: l₂ ∧ (∀ x ∈ l₁, matchRes x id name = false) ∧
      matchRes r0 id name = true := by
  induction l with
  | nil => simp [findRes] at h
  | cons r rs ih =>
    unfold findRes at h
    cases hm : matchRes r id name with
    | true =>
      simp only [List.find?, hm, Option.some.injEq] at h
      subst h
      exact ⟨[], rs, rfl, by simp, hm⟩
    | false =>
      simp only [List.find?, hm] at h
      obtain ⟨l₁, l₂, hl, h1, h0⟩ := ih h
      refine ⟨r :: l₁, l₂, by simp [hl], ?_, h0⟩
      intro x hx
      rcases List.mem_cons.mp hx with rfl | hx'
      · exact hm
      · exact h1 x hx'

theorem findRes_matches {l : List Reservation} {id name : String} {r0 : Reservation}
    (h : findRes l id name = some r0) : r0.id = id ∧ r0.customerName = name := by
  obtain ⟨l₁, l₂, hl, h1, h0⟩ := findRes_decomp h
  exact (matchRes_iff r0 id name).mp h0

theorem updateFirst_decomp (l₁ : List Reservation) (r0 : Reservation) (l₂ : List Reservation)
    (id name : String) (f : Reservation → Reservation)
    (h1 : ∀ x ∈ l₁, matchRes x id name = false) (h0 : matchRes r0 id name = true) :
    updateFirst (l₁ ++ r0 :: l₂) id name f = l₁ ++ f r0 :: l₂ := by
  induction l₁ with
  | nil => simp [updateFirst, h0]
  | cons x xs ih =>
    have hx : matchRes x id name = false := h1 x (by simp)
    have step : updateFirst ((x :: xs) ++ r0 :: l₂) id name f
        = x :: updateFirst (xs ++ r0 :: l₂) id name f := by
      simp [updateFirst, hx]
    rw [step, ih (fun y hy => h1 y (by simp [hy]))]
    simp

theorem filter_decomp (l₁ : List Reservation) (r0 : Reservation) (l₂ : List Reservation)
    (id name : String)
    (h1 : ∀ x ∈ l₁, matchRes x id name = false)
    (h2 : ∀ x ∈ l₂, matchRes x id name = false)
    (h0 : matchRes r0 id name = true) :
    (l₁ ++ r0 :: l₂).filter (fun r => !matchRes r id name) = l₁ ++ l₂ := by
  rw [List.filter_append]
  have e1 : l₁.filter (fun r => !matchRes r id name) = l₁ :=
    List.filter_eq_self.mpr (fun a ha => by simp [h1 a ha])
  have e2 : (r0 :: l₂).filter (fun r => !matchRes r id name) = l₂ := by
    rw [List.filter_cons_of_neg (by simp [h0])]
    exact List.filter_eq_self.mpr (fun a ha => by simp [h2 a ha])
  rw [e1, e2]

-- -------- Operation characterizations --------

/-- Success characterization of `reserveTable`: when every guard
passes, the table is claimed, one record is appended with a freshly
generated id, and the table index is returned. -/
theorem reserveTable_ok (s : ManagerState) (cn ph : String) (ps : Int) (d t : String) (tn : Int)
    (h1 : validatePhoneNumber ph = true) (h2 : validatePartySize ps = true)
    (h3 : validateDate d = true) (h4 : validateTime t d = true)
    (h5 : 0 ≤ tn) (h6 : tn < (s.tables.length : Int))
    (h7 : s.tables.getD tn.toNat false = true) :
    ∃ m, s.nextReservationId ≤ m ∧ (∀ r ∈ s.reservations, r.id ≠ mkId m) ∧
      reserveTable s cn ph ps d t tn =
        ({ tables := s.tables.set tn.toNat false,
           reservations := s.reservations ++ [⟨mkId m, cn, ph, ps, d, t, tn⟩],
           nextReservationId := m + 1 }, .ok tn) := by
  obtain ⟨m, hm1, hm2, hm3⟩ := genId_spec s.reservations s.nextReservationId
  refine ⟨m, hm1, hm3, ?_⟩
  have hA : ¬ tn < 0 := not_lt.mpr h5
  have hB : ¬ tn ≥ (s.tables.length : Int) := not_le.mpr h6
  unfold reserveTable
  rw [h1, h2, h3, h4]
  simp only [Bool.not_true, Bool.false_eq_true, if_false, hA, hB, h7, hm2]
  simp

/-- On any thrown exception, `reserveTable` leaves the state as it
was. -/
theorem reserveTable_err (s : ManagerState) (cn ph : String) (ps : Int) (d t : String) (tn : Int)
    (he : isErr (reserveTable s cn ph ps d t tn).2 = true) :
    (reserveTable s cn ph ps d t tn).1 = s := by
  unfold reserveTable at he ⊢
  split_ifs at he ⊢ <;> first | rfl | (exfalso; simp [isErr] at he)

/-- Success characterization of `cancelReservation`. -/
theorem cancelReservation_ok (s : ManagerState) (rid name : String) (r0 : Reservation)
    (hv : validateReservationId rid = true)
    (hf : findRes s.reservations rid name = some r0) :
    cancelReservation s rid name =
      ({ tables := s.tables.set r0.tableNumber.toNat true,
         reservations := s.reservations.filter (fun r => !matchRes r rid name),
         nextReservationId := s.nextReservationId }, .ok ()) := by
  unfold cancelReservation
  rw [hv]
  simp only [Bool.not_true, Bool.false_eq_true, if_false, hf]

/-- On any thrown exception, `cancelReservation` leaves the state as
it was. -/
theorem cancelReservation_err (s : ManagerState) (rid name : String)
    (he : isErr (cancelReservation s rid name).2 = true) :
    (cancelReservation s rid name).1 = s := by
  unfold cancelReservation at he ⊢
  cases hv : validateReservationId rid with
  | false => simp [hv]
  | true =>
    cases hf : findRes s.reservations rid name with
    | none => simp [hv, hf]
    | some r0 => simp [hv, hf, isErr] at he

/-- A table referenced by an active reservation is occupied (under the
invariant). -/
theorem inv_table_occupied (s : ManagerState) (hInv : Inv s) (r0 : Reservation)
    (hr : r0 ∈ s.reservations) :
    s.tables.getD r0.tableNumber.toNat false = false := by
  obtain ⟨hlen, hbij, -, -, hrange⟩ := hInv
  obtain ⟨h0, hlt⟩ := hrange r0 hr
  have hT : r0.tableNumber.toNat < s.tables.length := by omega
  cases hb : s.tables.getD r0.tableNumber.toNat false
  · rfl
  · exfalso
    exact (hbij _ hT).mp hb r0 hr (by omega)

/-- Success characterization of `updateReservation` when the table
field is left unchanged (`newTableIndex = -1`): only the matched
record is rewritten, keyed fields by their sentinels, and the bitmap
is untouched. -/
theorem updateReservation_ok_keep (s : ManagerState)
    (rid name nid nname nphone : String) (nps : Int) (nd nt : String)
    (r0 : Reservation)
    (hv : validateReservationId rid = true)
    (hf : findRes s.reservations rid name = some r0)
    (g1 : (nid != "0" && !validateReservationId nid) = false)
    (g2 : (nid != "0" && reservationIdExists s.reservations nid rid) = false)
    (g3 : (nphone != "0" && !validatePhoneNumber nphone) = false)
    (g4 : (nps != 0 && !validatePartySize nps) = false)
    (g5 : (nd != "0" && !validateDate nd) = false)
    (g6 : (nt != "0" && !validateTime nt (if nd != "0" then nd else CURRENT_DATE)) = false) :
    updateReservation s rid name nid nname nphone nps nd nt (-1) =
      ({ s with reservations :=
                  updateFirst s.reservations rid name
                    (fun r => applyFieldUpdate r nid nname nphone nps nd nt r0.tableNumber) },
       .ok ()) := by
  unfold updateReservation
  rw [hv]
  simp only [Bool.not_true, Bool.false_eq_true, if_false, hf, g1, g2, g3, g4, g5, g6,
    if_neg (by omega : ¬ (-1 : Int) ≠ -1)]

/-- Success characterization of `updateReservation` on a table
reassignment: the old slot is freed, the new slot is claimed, and the
matched record is rewritten with the new table index. -/
theorem updateReservation_ok_move (s : ManagerState)
    (rid name nid nname nphone : String) (nps : Int) (nd nt : String) (nti : Int)
    (r0 : Reservation)
    (hv : validateReservationId rid = true)
    (hf : findRes s.reservations rid name = some r0)
    (g1 : (nid != "0" && !validateReservationId nid) = false)
    (g2 : (nid != "0" && reservationIdExists s.reservations nid rid) = false)
    (g3 : (nphone != "0" && !validatePhoneNumber nphone) = false)
    (g4 : (nps != 0 && !validatePartySize nps) = false)
    (g5 : (nd != "0" && !validateDate nd) = false)
    (g6 : (nt != "0" && !validateTime nt (if nd != "0" then nd else CURRENT_DATE)) = false)
    (hne : nti ≠ -1) (h5 : 0 ≤ nti) (h6 : nti < (s.tables.length : Int))
    (hclaim : (s.tables.set r0.tableNumber.toNat true).getD nti.toNat false = true) :
    updateReservation s rid name nid nname nphone nps nd nt nti =
      ({ tables := (s.tables.set r0.tableNumber.toNat true).set nti.toNat false,
         reservations := updateFirst s.reservations rid name
           (fun r => applyFieldUpdate r nid nname nphone nps nd nt nti),
         nextReservationId := s.nextReservationId }, .ok ()) := by
  have hA : decide (nti < 0) = false := decide_eq_false (not_lt.mpr h5)
  have hB : decide (nti ≥ (s.tables.length : Int)) = false := decide_eq_false (not_le.mpr h6)
  unfold updateReservation
  rw [hv]
  simp only [Bool.not_true, Bool.false_eq_true, if_false, hf, g1, g2, g3, g4, g5, g6,
    if_pos hne, hA, hB, Bool.or_self, hclaim]

/-- The failed-claim branch of `updateReservation`: the old slot is
released and then written back, and `TableUnavailable` is signalled. -/
theorem updateReservation_claim_fail (s : ManagerState)
    (rid name nid nname nphone : String) (nps : Int) (nd nt : String) (nti : Int)
    (r0 : Reservation)
    (hv : validateReservationId rid = true)
    (hf : findRes s.reservations rid name = some r0)
    (g1 : (nid != "0" && !validateReservationId nid) = false)
    (g2 : (nid != "0" && reservationIdExists s.reservations nid rid) = false)
    (g3 : (nphone != "0" && !validatePhoneNumber nphone) = false)
    (g4 : (nps != 0 && !validatePartySize nps) = false)
    (g5 : (nd != "0" && !validateDate nd) = false)
    (g6 : (nt != "0" && !validateTime nt (if nd != "0" then nd else CURRENT_DATE)) = false)
    (hne : nti ≠ -1) (h5 : 0 ≤ nti) (h6 : nti < (s.tables.length : Int))
    (hclaim : (s.tables.set r0.tableNumber.toNat true).getD nti.toNat false = false) :
    updateReservation s rid name nid nname nphone nps nd nt nti =
      ({ s with tables :=
          (s.tables.set r0.tableNumber.toNat true).set r0.tableNumber.toNat false },
       .error msgTableBooked) := by
  have hA : decide (nti < 0) = false := decide_eq_false (not_lt.mpr h5)
  have hB : decide (nti ≥ (s.tables.length : Int)) = false := decide_eq_false (not_le.mpr h6)
  unfold updateReservation
  rw [hv]
  simp only [Bool.not_true, Bool.false_eq_true, if_false, hf, g1, g2, g3, g4, g5, g6,
    if_pos hne, hA, hB, Bool.or_self, hclaim]
  rfl

/-- On any thrown exception, `updateReservation` leaves the state
exactly as it was (for the failed table claim this uses the invariant:
the record's own slot was occupied, so the release/revert sequence
writes its original value back). -/
theorem updateReservation_err (s : ManagerState)
    (rid name nid nname nphone : String) (nps : Int) (nd nt : String) (nti : Int)
    (hInv : Inv s)
    (he : isErr (updateReservation s rid name nid nname nphone nps nd nt nti).2 = true) :
    (updateReservation s rid name nid nname nphone nps nd nt nti).1 = s := by
  cases hv : validateReservationId rid with
  | false =>
    unfold updateReservation
    rw [hv]
    rfl
  | true =>
  cases hf : findRes s.reservations rid name with
  | none =>
    unfold updateReservation
    rw [hv]
    simp only [Bool.not_true, Bool.false_eq_true, if_false, hf]
  | some r0 =>
  cases hg1 : (nid != "0" && !validateReservationId nid) with
  | true =>
    unfold updateReservation
    rw [hv]
    simp only [Bool.not_true, Bool.false_eq_true, if_false, hf, hg1, if_true]
  | false =>
  cases hg2 : (nid != "0" && reservationIdExists s.reservations nid rid) with
  | true =>
    unfold updateReservation
    rw [hv]
    simp only [Bool.not_true, Bool.false_eq_true, if_false, hf, hg1, hg2, if_true]
  | false =>
  cases hg3 : (nphone != "0" && !validatePhoneNumber nphone) with
  | true =>
    unfold updateReservation
    rw [hv]
    simp only [Bool.not_true, Bool.false_eq_true, if_false, hf, hg1, hg2, hg3, if_true]
  | false =>
  cases hg4 : (nps != 0 && !validatePartySize nps) with
  | true =>
    unfold updateReservation
    rw [hv]
    simp only [Bool.not_true, Bool.false_eq_true, if_false, hf, hg1, hg2, hg3, hg4, if_true]
  | false =>
  cases hg5 : (nd != "0" && !validateDate nd) with
  | true =>
    unfold updateReservation
    rw [hv]
    simp only [Bool.not_true, Bool.false_eq_true, if_false, hf, hg1, hg2, hg3, hg4, hg5,
      if_true]
  | false =>
  cases hg6 : (nt != "0" && !validateTime nt (if nd != "0" then nd else CURRENT_DATE)) with
  | true =>
    unfold updateReservation
    rw [hv]
    simp only [Bool.not_true, Bool.false_eq_true, if_false, hf, hg1, hg2, hg3, hg4, hg5,
      hg6, if_true]
  | false =>
  by_cases hne : nti = -1
  · subst hne
    rw [updateReservation_ok_keep s rid name nid nname nphone nps nd nt r0
      hv hf hg1 hg2 hg3 hg4 hg5 hg6] at he
    simp [isErr] at he
  · cases hr : (decide (nti < 0) || decide (nti ≥ (s.tables.length : Int))) with
    | true =>
      unfold updateReservation
      rw [hv]
      simp only [Bool.not_true, Bool.false_eq_true, if_false, hf, hg1, hg2, hg3, hg4,
        hg5, hg6, if_pos hne, hr, if_true]
    | false =>
      have hr' := hr
      simp only [Bool.or_eq_false_iff, decide_eq_false_iff_not] at hr'
      have h5 : 0 ≤ nti := not_lt.mp hr'.1
      have h6 : nti < (s.tables.length : Int) := not_le.mp hr'.2
      cases hclaim : (s.tables.set r0.tableNumber.toNat true).getD nti.toNat false with
      | false =>
        have hocc := inv_table_occupied s hInv r0 (findRes_mem hf)
        rw [updateReservation_claim_fail s rid name nid nname nphone nps nd nt nti r0
          hv hf hg1 hg2 hg3 hg4 hg5 hg6 hne h5 h6 hclaim]
        show { s with tables :=
          (s.tables.set r0.tableNumber.toNat true).set r0.tableNumber.toNat false } = s
        rw [List.set_set, set_getD_self _ _ _ false hocc]
      | true =>
        rw [updateReservation_ok_move s rid name nid nname nphone nps nd nt nti r0
          hv hf hg1 hg2 hg3 hg4 hg5 hg6 hne h5 h6 hclaim] at he
        simp [isErr] at he

-- -------- Invariant preservation --------

theorem pairwise_ne_others (f : Reservation → α) (l₁ : List Reservation) (r0 : Reservation)
    (l₂ : List Reservation)
    (hp : List.Pairwise (fun a b => f a ≠ f b) (l₁ ++ r0 :: l₂)) :
    ∀ x ∈ l₁ ++ l₂, f x ≠ f r0 := by
  rw [List.pairwise_append] at hp
  obtain ⟨-, hp2, hp3⟩ := hp
  rw [List.pairwise_cons] at hp2
  intro x hx
  rcases List.mem_append.mp hx with h | h
  · exact hp3 x h r0 (by simp)
  · exact (hp2.1 x h).symm

theorem pairwise_ne_replace (f : Reservation → α) (l₁ : List Reservation)
    (r0 : Reservation) (l₂ : List Reservation) (r0' : Reservation)
    (hp : List.Pairwise (fun a b => f a ≠ f b) (l₁ ++ r0 :: l₂))
    (hnew : ∀ x ∈ l₁ ++ l₂, f x ≠ f r0') :
    List.Pairwise (fun a b => f a ≠ f b) (l₁ ++ r0' :: l₂) := by
  rw [List.pairwise_append] at hp ⊢
  obtain ⟨hp1, hp2, hp3⟩ := hp
  rw [List.pairwise_cons] at hp2 ⊢
  refine ⟨hp1, ⟨?_, hp2.2⟩, ?_⟩
  · intro b hb
    exact (hnew b (by simp [hb])).symm
  · intro a ha b hb
    rcases List.mem_cons.mp hb with rfl | hb'
    · exact hnew a (by simp [ha])
    · exact hp3 a ha b (by simp [hb'])

/-- The successful-reservation state satisfies the invariant. -/
theorem inv_after_reserve (s : ManagerState) (hInv : Inv s) (R : Reservation) (c : Nat)
    (hRt : 0 ≤ R.tableNumber) (hRlt : R.tableNumber < (s.tables.length : Int))
    (hav : s.tables.getD R.tableNumber.toNat false = true)
    (hRid : ∀ r ∈ s.reservations, r.id ≠ R.id) :
    Inv { tables := s.tables.set R.tableNumber.toNat false,
          reservations := s.reservations ++ [R], nextReservationId := c } := by
  obtain ⟨hlen, hbij, hptab, hpid, hrange⟩ := hInv
  have hkN : R.tableNumber.toNat < s.tables.length := by omega
  have hobs : ∀ r ∈ s.reservations, r.tableNumber ≠ R.tableNumber := by
    intro r hr
    have := (hbij R.tableNumber.toNat hkN).mp hav r hr
    omega
  refine ⟨by simpa using hlen, ?_, ?_, ?_, ?_⟩
  · intro T hT
    rw [List.length_set] at hT
    by_cases hTk : T = R.tableNumber.toNat
    · subst hTk
      rw [getD_set_eq _ _ _ _ hkN]
      constructor
      · intro h
        exact absurd h (by simp)
      · intro h
        exact absurd (h R (by simp)) (by omega)
    · rw [getD_set_ne _ _ _ _ _ (fun he => hTk he.symm), hbij T hT]
      constructor
      · intro h r hr
        rcases List.mem_append.mp hr with h' | h'
        · exact h r h'
        · rw [List.mem_singleton.mp h']
          omega
      · intro h r hr
        exact h r (by simp [hr])
  · rw [List.pairwise_append]
    refine ⟨hptab, by simp, ?_⟩
    intro a ha b hb
    rw [List.mem_singleton.mp hb]
    exact hobs a ha
  · rw [List.pairwise_append]
    refine ⟨hpid, by simp, ?_⟩
    intro a ha b hb
    rw [List.mem_singleton.mp hb]
    exact hRid a ha
  · intro r hr
    rcases List.mem_append.mp hr with h | h
    · have := hrange r h
      constructor
      · exact this.1
      · simpa using this.2
    · rw [List.mem_singleton.mp h]
      exact ⟨hRt, by simpa using hRlt⟩

/-- The successful-cancellation state satisfies the invariant. -/
theorem inv_after_cancel (s : ManagerState) (hInv : Inv s) (rid name : String)
    (r0 : Reservation) (hf : findRes s.reservations rid name = some r0) :
    Inv { tables := s.tables.set r0.tableNumber.toNat true,
          reservations := s.reservations.filter (fun r => !matchRes r rid name),
          nextReservationId := s.nextReservationId } := by
  obtain ⟨l₁, l₂, hl, h1, h0⟩ := findRes_decomp hf
  obtain ⟨hlen, hbij, hptab, hpid, hrange⟩ := hInv
  have hr0mem : r0 ∈ s.reservations := findRes_mem hf
  obtain ⟨h0t, hltt⟩ := hrange r0 hr0mem
  have hkN : r0.tableNumber.toNat < s.tables.length := by omega
  have hr0id : r0.id = rid := ((matchRes_iff _ _ _).mp h0).1
  have h2 : ∀ x ∈ l₂, matchRes x rid name = false := by
    intro x hx
    cases hb : matchRes x rid name
    · rfl
    · exfalso
      have hxid : x.id = rid := ((matchRes_iff _ _ _).mp hb).1
      have hp := hpid
      rw [hl, List.pairwise_append] at hp
      have := hp.2.1
      rw [List.pairwise_cons] at this
      exact this.1 x hx (by rw [hr0id, hxid])
  have hfil : s.reservations.filter (fun r => !matchRes r rid name) = l₁ ++ l₂ := by
    rw [hl]
    exact filter_decomp l₁ r0 l₂ rid name h1 h2 h0
  have hothers : ∀ x ∈ l₁ ++ l₂, x.tableNumber ≠ r0.tableNumber := by
    have := pairwise_ne_others (fun r => r.tableNumber) l₁ r0 l₂ (by rw [← hl]; exact hptab)
    exact this
  rw [hfil]
  refine ⟨by simpa using hlen, ?_, ?_, ?_, ?_⟩
  · intro T hT
    rw [List.length_set] at hT
    by_cases hTk : T = r0.tableNumber.toNat
    · subst hTk
      rw [getD_set_eq _ _ _ _ hkN]
      constructor
      · intro _ r hr
        have := hothers r hr
        omega
      · intro _
        rfl
    · rw [getD_set_ne _ _ _ _ _ (fun he => hTk he.symm), hbij T hT]
      constructor
      · intro h r hr
        apply h
        rw [hl]
        rcases List.mem_append.mp hr with h' | h'
        · simp [h']
        · simp [h']
      · intro h
        intro r hr
        rw [hl] at hr
        rcases List.mem_append.mp hr with h' | h'
        · exact h r (by simp [h'])
        · rcases List.mem_cons.mp h' with rfl | h''
          · omega
          · exact h r (by simp [h''])
  · have hsub : List.Sublist (l₁ ++ l₂) (l₁ ++ r0 :: l₂) :=
      List.Sublist.append_left (List.sublist_cons_self r0 l₂) l₁
    exact List.Pairwise.sublist hsub (hl ▸ hptab)
  · have hsub : List.Sublist (l₁ ++ l₂) (l₁ ++ r0 :: l₂) :=
      List.Sublist.append_left (List.sublist_cons_self r0 l₂) l₁
    exact List.Pairwise.sublist hsub (hl ▸ hpid)
  · intro r hr
    have hr' : r ∈ s.reservations := by
      rw [hl]
      rcases List.mem_append.mp hr with h' | h'
      · simp [h']
      · simp [h']
    have := hrange r hr'
    exact ⟨this.1, by simpa using this.2⟩

theorem mem_of_mem_removed {x r0 : Reservation} {l₁ l₂ : List Reservation}
    (hx : x ∈ l₁ ++ l₂) : x ∈ l₁ ++ r0 :: l₂ := by
  rcases List.mem_append.mp hx with h | h
  · exact List.mem_append.mpr (Or.inl h)
  · exact List.mem_append.mpr (Or.inr (List.mem_cons_of_mem r0 h))

theorem forall_tables_mono (l₁ l₂ : List Reservation) (r0 r0' : Reservation) (T : Int)
    (h0' : r0'.tableNumber = r0.tableNumber ∨ r0'.tableNumber ≠ T)
    (h : ∀ r ∈ l₁ ++ r0 :: l₂, r.tableNumber ≠ T) :
    ∀ r ∈ l₁ ++ r0' :: l₂, r.tableNumber ≠ T := by
  intro r hr
  rcases List.mem_append.mp hr with h' | h'
  · exact h r (List.mem_append.mpr (Or.inl h'))
  · rcases List.mem_cons.mp h' with rfl | h''
    · rcases h0' with he | hne
      · rw [he]
        exact h r0 (List.mem_append.mpr (Or.inr (List.mem_cons_self _ _)))
      · exact hne
    · exact h r (List.mem_append.mpr (Or.inr (List.mem_cons_of_mem _ h'')))

/-- The id given to the updated record collides with no other
remaining record, thanks to the conflict guard and id uniqueness. -/
theorem newId_fresh (s : ManagerState)
    (hpid : List.Pairwise (fun a b : Reservation => a.id ≠ b.id) s.reservations)
    (rid name nid : String) (r0 : Reservation) (l₁ l₂ : List Reservation)
    (hl : s.reservations = l₁ ++ r0 :: l₂)
    (hr0id : r0.id = rid)
    (g2 : (nid != "0" && reservationIdExists s.reservations nid rid) = false) :
    ∀ x ∈ l₁ ++ l₂, x.id ≠ (if nid != "0" then nid else r0.id) := by
  intro x hx
  have hxne : x.id ≠ r0.id := pairwise_ne_others (fun r => r.id) l₁ r0 l₂ (hl ▸ hpid) x hx
  by_cases hnid : nid = "0"
  · simp only [hnid, bne_self_eq_false, Bool.false_eq_true, if_false]
    exact hxne
  · have hbne : (nid != "0") = true := by simp [hnid]
    rw [if_pos hbne]
    intro hxid
    have hex : reservationIdExists s.reservations nid rid = true := by
      unfold reservationIdExists
      rw [List.any_eq_true]
      refine ⟨x, by rw [hl]; exact mem_of_mem_removed hx, ?_⟩
      simp only [Bool.and_eq_true, beq_iff_eq, bne_iff_ne, ne_eq]
      exact ⟨hxid, by rw [← hr0id]; exact hxne⟩
    rw [hbne, hex] at g2
    simp at g2

/-- The successful-update state with an unchanged table satisfies the
invariant. -/
theorem inv_after_update_keep (s : ManagerState) (hInv : Inv s)
    (rid name nid nname nphone : String) (nps : Int) (nd nt : String) (r0 : Reservation)
    (hf : findRes s.reservations rid name = some r0)
    (g2 : (nid != "0" && reservationIdExists s.reservations nid rid) = false) :
    Inv { s with reservations :=
                   updateFirst s.reservations rid name
                     (fun r => applyFieldUpdate r nid nname nphone nps nd nt r0.tableNumber) } := by
  obtain ⟨l₁, l₂, hl, h1, h0⟩ := findRes_decomp hf
  obtain ⟨hlen, hbij, hptab, hpid, hrange⟩ := hInv
  have hr0id : r0.id = rid := ((matchRes_iff _ _ _).mp h0).1
  have hupd : updateFirst s.reservations rid name
      (fun r => applyFieldUpdate r nid nname nphone nps nd nt r0.tableNumber)
      = l₁ ++ applyFieldUpdate r0 nid nname nphone nps nd nt r0.tableNumber :: l₂ := by
    rw [hl]
    exact updateFirst_decomp l₁ r0 l₂ rid name _ h1 h0
  have hid' : ∀ x ∈ l₁ ++ l₂,
      x.id ≠ (applyFieldUpdate r0 nid nname nphone nps nd nt r0.tableNumber).id :=
    newId_fresh s hpid rid name nid r0 l₁ l₂ hl hr0id g2
  have htab' : ∀ x ∈ l₁ ++ l₂,
      x.tableNumber ≠ (applyFieldUpdate r0 nid nname nphone nps nd nt r0.tableNumber).tableNumber :=
    pairwise_ne_others (fun r => r.tableNumber) l₁ r0 l₂ (hl ▸ hptab)
  rw [hupd]
  refine ⟨hlen, ?_, ?_, ?_, ?_⟩
  · intro T hT
    rw [hbij T hT, hl]
    constructor
    · exact forall_tables_mono l₁ l₂ r0 _ (T : Int) (Or.inl rfl)
    · exact forall_tables_mono l₁ l₂ _ r0 (T : Int) (Or.inl rfl)
  · exact pairwise_ne_replace _ l₁ r0 l₂ _ (hl ▸ hptab) htab'
  · exact pairwise_ne_replace _ l₁ r0 l₂ _ (hl ▸ hpid) hid'
  · intro r hr
    rcases List.mem_append.mp hr with h' | h'
    · exact hrange r (by rw [hl]; exact List.mem_append.mpr (Or.inl h'))
    · rcases List.mem_cons.mp h' with rfl | h''
      · exact hrange r0 (findRes_mem hf)
      · exact hrange r (by rw [hl]; exact mem_of_mem_removed (List.mem_append.mpr (Or.inr h'')))

/-- The successful-update state with a table reassignment satisfies
the invariant. -/
theorem inv_after_update_move (s : ManagerState) (hInv : Inv s)
    (rid name nid nname nphone : String) (nps : Int) (nd nt : String) (nti : Int)
    (r0 : Reservation)
    (hf : findRes s.reservations rid name = some r0)
    (g2 : (nid != "0" && reservationIdExists s.reservations nid rid) = false)
    (h5 : 0 ≤ nti) (h6 : nti < (s.tables.length : Int))
    (hclaim : (s.tables.set r0.tableNumber.toNat true).getD nti.toNat false = true) :
    Inv { tables := (s.tables.set r0.tableNumber.toNat true).set nti.toNat false,
          reservations := updateFirst s.reservations rid name
            (fun r => applyFieldUpdate r nid nname nphone nps nd nt nti),
          nextReservationId := s.nextReservationId } := by
  obtain ⟨l₁, l₂, hl, h1, h0⟩ := findRes_decomp hf
  obtain ⟨hlen, hbij, hptab, hpid, hrange⟩ := hInv
  obtain ⟨h0t, hltt⟩ := hrange r0 (findRes_mem hf)
  have hkN : r0.tableNumber.toNat < s.tables.length := by omega
  have hnewk : nti.toNat < s.tables.length := by omega
  have hr0id : r0.id = rid := ((matchRes_iff _ _ _).mp h0).1
  have hupd : updateFirst s.reservations rid name
      (fun r => applyFieldUpdate r nid nname nphone nps nd nt nti)
      = l₁ ++ applyFieldUpdate r0 nid nname nphone nps nd nt nti :: l₂ := by
    rw [hl]
    exact updateFirst_decomp l₁ r0 l₂ rid name _ h1 h0
  have hid' : ∀ x ∈ l₁ ++ l₂,
      x.id ≠ (applyFieldUpdate r0 nid nname nphone nps nd nt nti).id :=
    newId_fresh s hpid rid name nid r0 l₁ l₂ hl hr0id g2
  have htab' : ∀ x ∈ l₁ ++ l₂, x.tableNumber ≠ nti := by
    by_cases hkk : nti.toNat = r0.tableNumber.toNat
    · have : nti = r0.tableNumber := by omega
      rw [this]
      exact pairwise_ne_others (fun r => r.tableNumber) l₁ r0 l₂ (hl ▸ hptab)
    · have hgd : s.tables.getD nti.toNat false = true := by
        rw [← getD_set_ne s.tables r0.tableNumber.toNat nti.toNat true false
          (fun he => hkk he.symm)]
        exact hclaim
      intro x hx
      have := (hbij nti.toNat hnewk).mp hgd x (by rw [hl]; exact mem_of_mem_removed hx)
      omega
  rw [hupd]
  refine ⟨by simpa using hlen, ?_, ?_, ?_, ?_⟩
  · intro T hT
    rw [List.length_set, List.length_set] at hT
    by_cases hTn : T = nti.toNat
    · subst hTn
      rw [getD_set_eq _ _ _ _ (by simpa using hnewk)]
      constructor
      · intro h
        exact absurd h (by simp)
      · intro h
        exfalso
        refine absurd (h (applyFieldUpdate r0 nid nname nphone nps nd nt nti) ?_) ?_
        · exact List.mem_append.mpr (Or.inr (List.mem_cons_self _ _))
        · show ¬ nti ≠ _
          omega
    · rw [getD_set_ne _ _ _ _ _ (fun he => hTn he.symm)]
      by_cases hTo : T = r0.tableNumber.toNat
      · subst hTo
        rw [getD_set_eq _ _ _ _ hkN]
        constructor
        · intro _ r hr
          rcases List.mem_append.mp hr with h' | h'
          · have h9 : r.tableNumber ≠ r0.tableNumber :=
              pairwise_ne_others (fun r => r.tableNumber) l₁ r0 l₂ (hl ▸ hptab) r
                (List.mem_append.mpr (Or.inl h'))
            omega
          · rcases List.mem_cons.mp h' with rfl | h''
            · show ¬ nti = _
              omega
            · have h9 : r.tableNumber ≠ r0.tableNumber :=
                pairwise_ne_others (fun r => r.tableNumber) l₁ r0 l₂ (hl ▸ hptab) r
                  (List.mem_append.mpr (Or.inr h''))
              omega
        · intro _
          rfl
      · rw [getD_set_ne _ _ _ _ _ (fun he => hTo he.symm), hbij T hT, hl]
        constructor
        · refine forall_tables_mono l₁ l₂ r0 _ (T : Int) (Or.inr ?_)
          show ¬ nti = _
          omega
        · refine forall_tables_mono l₁ l₂ _ r0 (T : Int) (Or.inr ?_)
          omega
  · refine pairwise_ne_replace _ l₁ r0 l₂ _ (hl ▸ hptab) ?_
    exact htab'
  · exact pairwise_ne_replace _ l₁ r0 l₂ _ (hl ▸ hpid) hid'
  · intro r hr
    rcases List.mem_append.mp hr with h' | h'
    · have := hrange r (by rw [hl]; exact List.mem_append.mpr (Or.inl h'))
      exact ⟨this.1, by simpa using this.2⟩
    · rcases List.mem_cons.mp h' with rfl | h''
      · exact ⟨h5, by simpa using h6⟩
      · have := hrange r (by rw [hl]; exact mem_of_mem_removed (List.mem_append.mpr (Or.inr h'')))
        exact ⟨this.1, by simpa using this.2⟩

/-- `reserveTable` preserves the store invariant. -/
theorem inv_reserveTable (s : ManagerState) (hInv : Inv s) (cn ph : String) (ps : Int)
    (d t : String) (tn : Int) : Inv (reserveTable s cn ph ps d t tn).1 := by
  cases h1 : validatePhoneNumber ph with
  | false =>
    unfold reserveTable
    rw [h1]
    exact hInv
  | true =>
  cases h2 : validatePartySize ps with
  | false =>
    unfold reserveTable
    rw [h1, h2]
    exact hInv
  | true =>
  cases h3 : validateDate d with
  | false =>
    unfold reserveTable
    rw [h1, h2, h3]
    exact hInv
  | true =>
  cases h4 : validateTime t d with
  | false =>
    unfold reserveTable
    rw [h1, h2, h3, h4]
    exact hInv
  | true =>
  cases hr : (decide (tn < 0) || decide (tn ≥ (s.tables.length : Int))) with
  | true =>
    unfold reserveTable
    rw [h1, h2, h3, h4, hr]
    exact hInv
  | false =>
  cases h7 : s.tables.getD tn.toNat false with
  | false =>
    unfold reserveTable
    rw [h1, h2, h3, h4, hr, h7]
    exact hInv
  | true =>
    have hr' := hr
    simp only [Bool.or_eq_false_iff, decide_eq_false_iff_not] at hr'
    have h5 : 0 ≤ tn := not_lt.mp hr'.1
    have h6 : tn < (s.tables.length : Int) := not_le.mp hr'.2
    obtain ⟨m, hm1, hfresh, heq⟩ := reserveTable_ok s cn ph ps d t tn h1 h2 h3 h4 h5 h6 h7
    rw [heq]
    exact inv_after_reserve s hInv ⟨mkId m, cn, ph, ps, d, t, tn⟩ (m + 1) h5 h6 h7 hfresh

/-- `cancelReservation` preserves the store invariant. -/
theorem inv_cancelReservation (s : ManagerState) (hInv : Inv s) (rid name : String) :
    Inv (cancelReservation s rid name).1 := by
  cases hv : validateReservationId rid with
  | false =>
    unfold cancelReservation
    rw [hv]
    exact hInv
  | true =>
  cases hf : findRes s.reservations rid name with
  | none =>
    unfold cancelReservation
    rw [hv, hf]
    exact hInv
  | some r0 =>
    rw [cancelReservation_ok s rid name r0 hv hf]
    exact inv_after_cancel s hInv rid name r0 hf

/-- `updateReservation` preserves the store invariant. -/
theorem inv_updateReservation (s : ManagerState) (hInv : Inv s)
    (rid name nid nname nphone : String) (nps : Int) (nd nt : String) (nti : Int) :
    Inv (updateReservation s rid name nid nname nphone nps nd nt nti).1 := by
  by_cases hE : isErr (updateReservation s rid name nid nname nphone nps nd nt nti).2 = true
  · rw [updateReservation_err s rid name nid nname nphone nps nd nt nti hInv hE]
    exact hInv
  · cases hv : validateReservationId rid with
    | false =>
      exfalso
      apply hE
      unfold updateReservation
      rw [hv]
      rfl
    | true =>
    cases hf : findRes s.reservations rid name with
    | none =>
      exfalso
      apply hE
      unfold updateReservation
      rw [hv, hf]
      rfl
    | some r0 =>
    cases hg1 : (nid != "0" && !validateReservationId nid) with
    | true =>
      exfalso
      apply hE
      unfold updateReservation
      rw [hv, hf, hg1]
      rfl
    | false =>
    cases hg2 : (nid != "0" && reservationIdExists s.reservations nid rid) with
    | true =>
      exfalso
      apply hE
      unfold updateReservation
      rw [hv, hf, hg1, hg2]
      rfl
    | false =>
    cases hg3 : (nphone != "0" && !validatePhoneNumber nphone) with
    | true =>
      exfalso
      apply hE
      unfold updateReservation
      rw [hv, hf, hg1, hg2, hg3]
      rfl
    | false =>
    cases hg4 : (nps != 0 && !validatePartySize nps) with
    | true =>
      exfalso
      apply hE
      unfold updateReservation
      rw [hv, hf, hg1, hg2, hg3, hg4]
      rfl
    | false =>
    cases hg5 : (nd != "0" && !validateDate nd) with
    | true =>
      exfalso
      apply hE
      unfold updateReservation
      rw [hv, hf, hg1, hg2, hg3, hg4, hg5]
      rfl
    | false =>
    cases hg6 : (nt != "0" && !validateTime nt (if nd != "0" then nd else CURRENT_DATE)) with
    | true =>
      exfalso
      apply hE
      unfold updateReservation
      rw [hv, hf, hg1, hg2, hg3, hg4, hg5, hg6]
      rfl
    | false =>
    by_cases hne : nti = -1
    · subst hne
      rw [updateReservation_ok_keep s rid name nid nname nphone nps nd nt r0
        hv hf hg1 hg2 hg3 hg4 hg5 hg6]
      exact inv_after_update_keep s hInv rid name nid nname nphone nps nd nt r0 hf hg2
    · cases hr : (decide (nti < 0) || decide (nti ≥ (s.tables.length : Int))) with
      | true =>
        exfalso
        apply hE
        unfold updateReservation
        rw [hv]
        simp only [Bool.not_true, Bool.false_eq_true, if_false, hf, hg1, hg2, hg3, hg4,
          hg5, hg6, if_pos (show nti ≠ -1 from hne), hr, if_true]
        rfl
      | false =>
        have hr' := hr
        simp only [Bool.or_eq_false_iff, decide_eq_false_iff_not] at hr'
        have h5 : 0 ≤ nti := not_lt.mp hr'.1
        have h6 : nti < (s.tables.length : Int) := not_le.mp hr'.2
        cases hclaim : (s.tables.set r0.tableNumber.toNat true).getD nti.toNat false with
        | false =>
          exfalso
          apply hE
          rw [updateReservation_claim_fail s rid name nid nname nphone nps nd nt nti r0
            hv hf hg1 hg2 hg3 hg4 hg5 hg6 hne h5 h6 hclaim]
          rfl
        | true =>
          rw [updateReservation_ok_move s rid name nid nname nphone nps nd nt nti r0
            hv hf hg1 hg2 hg3 hg4 hg5 hg6 hne h5 h6 hclaim]
          exact inv_after_update_move s hInv rid name nid nname nphone nps nd nt nti r0
            hf hg2 h5 h6 hclaim

/-- The initial state satisfies the store invariant. -/
theorem inv_initState : Inv initState := by decide

/-- Every operation preserves the store invariant. -/
theorem inv_applyOp (s : ManagerState) (hInv : Inv s) (op : Op) : Inv (applyOp s op) := by
  cases op with
  | reserve a b c d e f => exact inv_reserveTable s hInv a b c d e f
  | cancel a b => exact inv_cancelReservation s hInv a b
  | update a b c d e f g h i => exact inv_updateReservation s hInv a b c d e f g h i

/-- The store invariant holds after any sequence of operations from
the initial state. -/
theorem inv_applyOps (ops : List Op) : Inv (applyOps ops) := by
  induction ops with
  | nil => exact inv_initState
  | cons op ops ih => exact inv_applyOp _ ih op

theorem reservationIdExists_self (l : List Reservation) (x : String) :
    reservationIdExists l x x = false := by
  apply (reservationIdExists_false_iff l x x).mpr
  rintro r hr ⟨h1, h2⟩
  exact h2 h1

theorem reservationIdExists_true_iff (l : List Reservation) (id excl : String) :
    reservationIdExists l id excl = true ↔ ∃ r ∈ l, r.id = id ∧ r.id ≠ excl := by
  unfold reservationIdExists
  rw [List.any_eq_true]
  simp only [Bool.and_eq_true, beq_iff_eq, bne_iff_ne, ne_eq]

/-- The out-of-range branch of the table reassignment. -/
theorem updateReservation_range_fail (s : ManagerState)
    (rid name nid nname nphone : String) (nps : Int) (nd nt : String) (nti : Int)
    (r0 : Reservation)
    (hv : validateReservationId rid = true)
    (hf : findRes s.reservations rid name = some r0)
    (g1 : (nid != "0" && !validateReservationId nid) = false)
    (g2 : (nid != "0" && reservationIdExists s.reservations nid rid) = false)
    (g3 : (nphone != "0" && !validatePhoneNumber nphone) = false)
    (g4 : (nps != 0 && !validatePartySize nps) = false)
    (g5 : (nd != "0" && !validateDate nd) = false)
    (g6 : (nt != "0" && !validateTime nt (if nd != "0" then nd else CURRENT_DATE)) = false)
    (hne : nti ≠ -1)
    (hr : (decide (nti < 0) || decide (nti ≥ (s.tables.length : Int))) = true) :
    updateReservation s rid name nid nname nphone nps nd nt nti =
      (s, .error msgBadNewTableIndex) := by
  unfold updateReservation
  rw [hv]
  simp only [Bool.not_true, Bool.false_eq_true, if_false, hf, g1, g2, g3, g4, g5, g6,
    if_pos hne, hr, if_true]

example : validatePhoneNumber "123-456-7890" = true := by decide
example : validatePhoneNumber "123-456-789" = false := by decide
example : validatePhoneNumber "1234567890" = false := by decide
example : validateDate "2025-05-19" = true := by decide
example : validateDate "2025-05-18" = false := by decide
example : validateDate "2025-02-30" = false := by decide
example : validateDate "2025-06-31" = true := by decide
example : validateDate "2025-13-01" = false := by decide
example : validateDate "2025-5-19" = false := by decide
example : validateTime "22:20" "2025-05-19" = true := by decide
example : validateTime "22:19" "2025-05-19" = false := by decide
example : validateTime "00:00" "2025-05-20" = true := by decide
example : validateTime "24:00" "2025-05-20" = false := by decide
example : validateTime "9:30" "2025-05-20" = false := by decide
example : validateReservationId "ID 1A" = true := by decide
example : validateReservationId "ID 123A" = true := by decide
example : validateReservationId "ID A" = false := by decide
example : validateReservationId "ID 1AA" = false := by decide
example : validateReservationId "id 1A" = false := by decide
example : validateReservationId "ID 1" = false := by decide

theorem count_set_true_of_false (l : List Bool) (k : Nat) (hk : k < l.length)
    (h : l.getD k false = false) : (l.set k true).count true = l.count true + 1 := by
  induction l generalizing k with
  | nil => simp at hk
  | cons x xs ih =>
    cases k with
    | zero =>
      have hx : x = false := h
      subst hx
      simp [List.count_cons]
    | succ j =>
      have := ih j (by simpa using hk) (by simpa [List.getD] using h)
      simp only [List.set, List.count_cons]
      omega

/-- Under id uniqueness, no reservation after the first (id, name)
match can match the same pair. -/
theorem no_later_match (s : ManagerState)
    (hpid : List.Pairwise (fun a b : Reservation => a.id ≠ b.id) s.reservations)
    (rid name : String) (r0 : Reservation) (l₁ l₂ : List Reservation)
    (hl : s.reservations = l₁ ++ r0 :: l₂)
    (h0 : matchRes r0 rid name = true) :
    ∀ x ∈ l₂, matchRes x rid name = false := by
  intro x hx
  cases hb : matchRes x rid name
  · rfl
  · exfalso
    have hr0id : r0.id = rid := ((matchRes_iff _ _ _).mp h0).1
    have hxid : x.id = rid := ((matchRes_iff _ _ _).mp hb).1
    rw [hl, List.pairwise_append] at hpid
    have := hpid.2.1
    rw [List.pairwise_cons] at this
    exact this.1 x hx (by rw [hr0id, hxid])

-- -------- Specification-side predicates for the date/time checks --------

/-- The spec's wording of the date shape: `YYYY-MM-DD`, four digits,
dash, two digits, dash, two digits. -/
def dateShapeSpec (d : String) : Prop :=
  d.length = 10 ∧
  (charAt d 0).isDigit = true ∧ (charAt d 1).isDigit = true ∧
  (charAt d 2).isDigit = true ∧ (charAt d 3).isDigit = true ∧
  charAt d 4 = '-' ∧
  (charAt d 5).isDigit = true ∧ (charAt d 6).isDigit = true ∧
  charAt d 7 = '-' ∧
  (charAt d 8).isDigit = true ∧ (charAt d 9).isDigit = true

/-- The spec's wording of the date check: the `YYYY-MM-DD` shape with
month in [1,12] and day in [1,31] (no per-month day count, no leap
years), and the date not lexicographically earlier than the reference
date. -/
def specDateOk (d : String) : Prop :=
  dateShapeSpec d ∧
  (1 ≤ dateMonth d ∧ dateMonth d ≤ 12) ∧
  (1 ≤ dateDay d ∧ dateDay d ≤ 31) ∧
  strLt d CURRENT_DATE = false

theorem dateShape_iff (d : String) : dateShape d = true ↔ dateShapeSpec d := by
  unfold dateShape dateShapeSpec
  simp [Bool.and_eq_true, beq_iff_eq, and_assoc]

theorem validateDate_iff (d : String) : validateDate d = true ↔ specDateOk d := by
  unfold validateDate specDateOk
  by_cases hS : dateShape d = true
  · rw [if_pos hS]
    split_ifs with hR hL
    · constructor
      · intro h
        exact absurd h (by simp)
      · rintro ⟨-, hm, hd, -⟩
        simp only [Bool.or_eq_true, decide_eq_true_eq] at hR
        omega
    · constructor
      · intro h
        exact absurd h (by simp)
      · rintro ⟨-, -, -, hl⟩
        rw [hl] at hL
        exact Bool.noConfusion hL
    · constructor
      · intro _
        refine ⟨(dateShape_iff d).mp hS, ?_, ?_, ?_⟩
        · simp only [Bool.or_eq_true, decide_eq_true_eq, not_or] at hR
          omega
        · simp only [Bool.or_eq_true, decide_eq_true_eq, not_or] at hR
          omega
        · cases hb : strLt d CURRENT_DATE
          · rfl
          · exact absurd hb hL
      · intro _
        rfl
  · rw [if_neg hS]
    constructor
    · intro h
      exact absurd h (by simp)
    · rintro ⟨hshape, -, -, -⟩
      exact absurd ((dateShape_iff d).mpr hshape) hS

/-- The spec's wording of the time shape: `HH:MM`. -/
def timeShapeSpec (t : String) : Prop :=
  t.length = 5 ∧
  (charAt t 0).isDigit = true ∧ (charAt t 1).isDigit = true ∧
  charAt t 2 = ':' ∧
  (charAt t 3).isDigit = true ∧ (charAt t 4).isDigit = true

/-- The spec's wording of the time check: the `HH:MM` shape with hour
in [0,23] and minute in [0,59]; when the supplied date is the
reference date, the time must be strictly later than the reference
time (hour greater, or equal hour with minute greater); on any other
date no temporal comparison applies. -/
def specTimeOk (t d : String) : Prop :=
  timeShapeSpec t ∧
  timeHour t ≤ 23 ∧ timeMinute t ≤ 59 ∧
  (d = CURRENT_DATE →
    (CURRENT_HOUR < timeHour t ∨
      (timeHour t = CURRENT_HOUR ∧ CURRENT_MINUTE < timeMinute t)))

theorem timeShape_iff (t : String) : timeShape t = true ↔ timeShapeSpec t := by
  unfold timeShape timeShapeSpec
  simp [Bool.and_eq_true, beq_iff_eq, and_assoc]

theorem validateTime_iff (t d : String) : validateTime t d = true ↔ specTimeOk t d := by
  unfold validateTime specTimeOk
  by_cases hS : timeShape t = true
  · rw [if_pos hS]
    split_ifs with hR hC
    · constructor
      · intro h
        exact absurd h (by simp)
      · rintro ⟨-, hh, hm, -⟩
        simp only [Bool.or_eq_true, decide_eq_true_eq] at hR
        omega
    · constructor
      · intro h
        exact absurd h (by simp)
      · rintro ⟨-, -, -, himp⟩
        simp only [Bool.and_eq_true, beq_iff_eq, Bool.or_eq_true, decide_eq_true_eq,
          Nat.le_eq] at hC
        obtain ⟨hd, hcomp⟩ := hC
        have hlater := himp hd
        rcases hcomp with h1 | ⟨h2, h3⟩ <;> rcases hlater with h4 | ⟨h5, h6⟩ <;>
          simp [CURRENT_HOUR, CURRENT_MINUTE] at * <;> omega
    · constructor
      · intro _
        have hC' : ¬(d = CURRENT_DATE ∧
            (timeHour t < CURRENT_HOUR ∨
              (timeHour t = CURRENT_HOUR ∧ timeMinute t ≤ CURRENT_MINUTE))) := by
          intro hcon
          apply hC
          simp only [Bool.and_eq_true, beq_iff_eq, Bool.or_eq_true, decide_eq_true_eq,
            Nat.le_eq]
          exact hcon
        refine ⟨(timeShape_iff t).mp hS, ?_, ?_, ?_⟩
        · simp only [Bool.or_eq_true, decide_eq_true_eq, not_or] at hR
          omega
        · simp only [Bool.or_eq_true, decide_eq_true_eq, not_or] at hR
          omega
        · intro hd
          have hC'' : ¬(timeHour t < CURRENT_HOUR ∨
              (timeHour t = CURRENT_HOUR ∧ timeMinute t ≤ CURRENT_MINUTE)) :=
            fun hcomp => hC' ⟨hd, hcomp⟩
          omega
      · intro _
        rfl
  · rw [if_neg hS]
    constructor
    · intro h
      exact absurd h (by simp)
    · rintro ⟨hshape, -, -, -⟩
      exact absurd ((timeShape_iff t).mpr hshape) hS

-- -------- Claim theorems --------

/-- **C8** (counterexample): the claim asserts that `validateDate`
returns true on "2025-02-30"; in fact the code rejects it, because
"2025-02-30" is lexicographically earlier than the reference date
"2025-05-19". -/
theorem C8_counterexample_date_in_past : validateDate "2025-02-30" = false := by decide

/-- **C8** (amended): `validateDate date` returns true iff `date`
matches the shape `YYYY-MM-DD` with month in [1,12] and day in [1,31]
and is not lexicographically earlier than the reference date
"2025-05-19"; there is no per-month day-count or leap-year check, so
for some inputs such as "2025-06-31" (a syntactically fine but
calendar-invalid date on or after the reference date) it returns
true. -/
theorem C8_validateDate_spec :
    (∀ d : String, validateDate d = true ↔ specDateOk d) ∧
    validateDate "2025-06-31" = true :=
  ⟨validateDate_iff, by decide⟩

/-- **C9**: `validateTime time date` returns true iff `time` matches
the shape `HH:MM` with hour in [0,23] and minute in [0,59] and, when
`date` equals the reference date "2025-05-19", the time is strictly
later than 22:19 (hour greater, or equal hour with minute greater;
equality is rejected); for any other date no temporal comparison
applies. -/
theorem C9_validateTime_spec : ∀ t d : String, validateTime t d = true ↔ specTimeOk t d :=
  validateTime_iff

/-- **C10**: `reservationIdExists id excludeId` returns true iff some
active reservation's identifier equals `id` and that identifier is not
`excludeId`; in particular `reservationIdExists x x` is false for
every string `x`, so `updateReservation` called with a new id equal to
the current reservation id never reports the id-conflict error. -/
theorem C10_reservationIdExists_excludes_self :
    (∀ (l : List Reservation) (id excl : String),
      reservationIdExists l id excl = true ↔ ∃ r ∈ l, r.id = id ∧ r.id ≠ excl) ∧
    (∀ (l : List Reservation) (x : String), reservationIdExists l x x = false) ∧
    (∀ (s : ManagerState) (rid name nname nphone : String) (nps : Int)
      (nd nt : String) (nti : Int),
      (updateReservation s rid name rid nname nphone nps nd nt nti).2 ≠
        Except.error msgIdConflict) := by
  refine ⟨reservationIdExists_true_iff, reservationIdExists_self, ?_⟩
  intro s rid name nname nphone nps nd nt nti h
  cases hv : validateReservationId rid with
  | false =>
    unfold updateReservation at h
    rw [hv] at h
    exact absurd (show Except.error msgBadId = Except.error msgIdConflict from h) (by decide)
  | true =>
  have hg1 : (rid != "0" && !validateReservationId rid) = false := by
    rw [hv]
    simp
  have hg1x : (rid != "0" && !true) = false := by simp
  have hg2 : (rid != "0" && reservationIdExists s.reservations rid rid) = false := by
    rw [reservationIdExists_self]
    simp
  cases hf : findRes s.reservations rid name with
  | none =>
    unfold updateReservation at h
    rw [hv, hf] at h
    exact absurd (show Except.error msgNoUpdate = Except.error msgIdConflict from h) (by decide)
  | some r0 =>
  cases hg3 : (nphone != "0" && !validatePhoneNumber nphone) with
  | true =>
    unfold updateReservation at h
    rw [hv, hf, hg1x, hg2, hg3] at h
    exact absurd (show Except.error msgBadPhone = Except.error msgIdConflict from h) (by decide)
  | false =>
  cases hg4 : (nps != 0 && !validatePartySize nps) with
  | true =>
    unfold updateReservation at h
    rw [hv, hf, hg1x, hg2, hg3, hg4] at h
    exact absurd (show Except.error msgBadPartySize = Except.error msgIdConflict from h)
      (by decide)
  | false =>
  cases hg5 : (nd != "0" && !validateDate nd) with
  | true =>
    unfold updateReservation at h
    rw [hv, hf, hg1x, hg2, hg3, hg4, hg5] at h
    exact absurd (show Except.error msgBadDate = Except.error msgIdConflict from h) (by decide)
  | false =>
  cases hg6 : (nt != "0" && !validateTime nt (if nd != "0" then nd else CURRENT_DATE)) with
  | true =>
    unfold updateReservation at h
    rw [hv, hf, hg1x, hg2, hg3, hg4, hg5, hg6] at h
    exact absurd (show Except.error msgBadTime = Except.error msgIdConflict from h) (by decide)
  | false =>
  by_cases hne : nti = -1
  · subst hne
    rw [updateReservation_ok_keep s rid name rid nname nphone nps nd nt r0
      hv hf hg1 hg2 hg3 hg4 hg5 hg6] at h
    exact absurd (show Except.ok () = Except.error msgIdConflict from h) (by decide)
  · cases hr : (decide (nti < 0) || decide (nti ≥ (s.tables.length : Int))) with
    | true =>
      rw [updateReservation_range_fail s rid name rid nname nphone nps nd nt nti r0
        hv hf hg1 hg2 hg3 hg4 hg5 hg6 hne hr] at h
      exact absurd (show Except.error msgBadNewTableIndex = Except.error msgIdConflict from h)
        (by decide)
    | false =>
      have hr' := hr
      simp only [Bool.or_eq_false_iff, decide_eq_false_iff_not] at hr'
      have h5 : 0 ≤ nti := not_lt.mp hr'.1
      have h6 : nti < (s.tables.length : Int) := not_le.mp hr'.2
      cases hclaim : (s.tables.set r0.tableNumber.toNat true).getD nti.toNat false with
      | false =>
        rw [updateReservation_claim_fail s rid name rid nname nphone nps nd nt nti r0
          hv hf hg1 hg2 hg3 hg4 hg5 hg6 hne h5 h6 hclaim] at h
        exact absurd (show Except.error msgTableBooked = Except.error msgIdConflict from h)
          (by decide)
      | true =>
        rw [updateReservation_ok_move s rid name rid nname nphone nps nd nt nti r0
          hv hf hg1 hg2 hg3 hg4 hg5 hg6 hne h5 h6 hclaim] at h
        exact absurd (show Except.ok () = Except.error msgIdConflict from h) (by decide)

/-- A sample reachable state: Alice holds table 0, the other nine
tables are free. -/
def sampleState : ManagerState :=
  { tables := [false, true, true, true, true, true, true, true, true, true],
    reservations := [⟨"ID 1A", "Alice", "123-456-7890", 2, "2025-05-20", "10:00", 0⟩],
    nextReservationId := 2 }

/-- **C2**: a `reserveTable` call whose phone, party size, date and
time pass validation and whose table index is in range and refers to
an available table succeeds: it returns the given index, marks that
table unavailable, appends exactly one record carrying the given
fields (with a generated id), and decreases the available-table count
by exactly 1. -/
theorem C2_reserveTable_success (s : ManagerState) (cn ph : String) (ps : Int)
    (d t : String) (tn : Int)
    (h1 : validatePhoneNumber ph = true) (h2 : validatePartySize ps = true)
    (h3 : validateDate d = true) (h4 : validateTime t d = true)
    (h5 : 0 ≤ tn) (h6 : tn < (s.tables.length : Int))
    (h7 : s.tables.getD tn.toNat false = true) :
    (reserveTable s cn ph ps d t tn).2 = .ok tn ∧
    (reserveTable s cn ph ps d t tn).1.tables = s.tables.set tn.toNat false ∧
    (∃ rid, (reserveTable s cn ph ps d t tn).1.reservations =
      s.reservations ++ [⟨rid, cn, ph, ps, d, t, tn⟩]) ∧
    countAvail (reserveTable s cn ph ps d t tn).1.tables + 1 = countAvail s.tables := by
  obtain ⟨m, hm1, hfresh, heq⟩ := reserveTable_ok s cn ph ps d t tn h1 h2 h3 h4 h5 h6 h7
  rw [heq]
  refine ⟨rfl, rfl, ⟨mkId m, rfl⟩, ?_⟩
  exact count_set_true s.tables tn.toNat h7

/-- Witness for C2 at a concrete input. -/
theorem C2_witness :
    initState.tables.getD 0 false = true ∧
    ((reserveTable initState "Alice" "123-456-7890" 2 "2025-05-20" "10:00" 0).2 = .ok 0 ∧
     (reserveTable initState "Alice" "123-456-7890" 2 "2025-05-20" "10:00" 0).1.tables =
       initState.tables.set 0 false ∧
     (∃ rid, (reserveTable initState "Alice" "123-456-7890" 2 "2025-05-20" "10:00" 0).1.reservations =
       initState.reservations ++ [⟨rid, "Alice", "123-456-7890", 2, "2025-05-20", "10:00", 0⟩]) ∧
     countAvail (reserveTable initState "Alice" "123-456-7890" 2 "2025-05-20" "10:00" 0).1.tables + 1 =
       countAvail initState.tables) :=
  ⟨by decide,
   C2_reserveTable_success initState "Alice" "123-456-7890" 2 "2025-05-20" "10:00" 0
     (by decide) (by decide) (by decide) (by decide) (by decide) (by decide) (by decide)⟩

/-- **C3**: `cancelReservation id customerName` succeeds iff the id
has the right shape and an active reservation carries exactly this id
and this customer name; on success it frees that reservation's table,
removes exactly one record, and increases the available count by
exactly 1; a bad id shape fails with the invalid-format error and an
unmatched (id, name) pair fails with the not-found error, both leaving
the state untouched. -/
theorem C3_cancelReservation_spec (s : ManagerState) (hInv : Inv s) (rid name : String) :
    ((cancelReservation s rid name).2 = .ok () ↔
      validateReservationId rid = true ∧
        ∃ r ∈ s.reservations, r.id = rid ∧ r.customerName = name) ∧
    (validateReservationId rid = false →
      cancelReservation s rid name = (s, .error msgBadId)) ∧
    (validateReservationId rid = true →
      (∀ r ∈ s.reservations, ¬(r.id = rid ∧ r.customerName = name)) →
      cancelReservation s rid name = (s, .error msgNoCancel)) ∧
    (∀ r0 : Reservation, findRes s.reservations rid name = some r0 →
      validateReservationId rid = true →
      (cancelReservation s rid name).1.tables = s.tables.set r0.tableNumber.toNat true ∧
      (cancelReservation s rid name).1.reservations.length + 1 = s.reservations.length ∧
      countAvail (cancelReservation s rid name).1.tables = countAvail s.tables + 1) := by
  have hbad : validateReservationId rid = false →
      cancelReservation s rid name = (s, .error msgBadId) := by
    intro hv
    unfold cancelReservation
    rw [hv]
    rfl
  have hnf : validateReservationId rid = true →
      (∀ r ∈ s.reservations, ¬(r.id = rid ∧ r.customerName = name)) →
      cancelReservation s rid name = (s, .error msgNoCancel) := by
    intro hv hno
    have hfn : findRes s.reservations rid name = none := (findRes_none_iff _ _ _).mpr hno
    unfold cancelReservation
    rw [hv, hfn]
    rfl
  have hok : ∀ r0 : Reservation, findRes s.reservations rid name = some r0 →
      validateReservationId rid = true →
      (cancelReservation s rid name).1.tables = s.tables.set r0.tableNumber.toNat true ∧
      (cancelReservation s rid name).1.reservations.length + 1 = s.reservations.length ∧
      countAvail (cancelReservation s rid name).1.tables = countAvail s.tables + 1 := by
    intro r0 hf hv
    rw [cancelReservation_ok s rid name r0 hv hf]
    obtain ⟨l₁, l₂, hl, h1, h0⟩ := findRes_decomp hf
    have h2 := no_later_match s hInv.2.2.2.1 rid name r0 l₁ l₂ hl h0
    have hocc := inv_table_occupied s hInv r0 (findRes_mem hf)
    obtain ⟨h0t, hltt⟩ := hInv.2.2.2.2 r0 (findRes_mem hf)
    refine ⟨rfl, ?_, ?_⟩
    · show (s.reservations.filter (fun r => !matchRes r rid name)).length + 1 =
        s.reservations.length
      rw [hl, filter_decomp l₁ r0 l₂ rid name h1 h2 h0]
      simp only [List.length_append, List.length_cons]
      omega
    · exact count_set_true_of_false s.tables r0.tableNumber.toNat (by omega) hocc
  refine ⟨?_, hbad, hnf, hok⟩
  constructor
  · intro hsucc
    cases hv : validateReservationId rid with
    | false =>
      rw [hbad hv] at hsucc
      exact Except.noConfusion hsucc
    | true =>
      refine ⟨rfl, ?_⟩
      cases hf : findRes s.reservations rid name with
      | none =>
        rw [hnf hv ((findRes_none_iff _ _ _).mp hf)] at hsucc
        exact Except.noConfusion hsucc
      | some r0 =>
        exact ⟨r0, findRes_mem hf, findRes_matches hf⟩
  · rintro ⟨hv, r, hr, hrid, hrname⟩
    cases hf : findRes s.reservations rid name with
    | none =>
      exact absurd ⟨hrid, hrname⟩ ((findRes_none_iff _ _ _).mp hf r hr)
    | some r0 =>
      rw [cancelReservation_ok s rid name r0 hv hf]

/-- Witness for C3 at a concrete input. -/
theorem C3_witness :
    Inv sampleState ∧
    (((cancelReservation sampleState "ID 1A" "Alice").2 = .ok () ↔
      validateReservationId "ID 1A" = true ∧
        ∃ r ∈ sampleState.reservations, r.id = "ID 1A" ∧ r.customerName = "Alice") ∧
     (validateReservationId "ID 1A" = false →
      cancelReservation sampleState "ID 1A" "Alice" = (sampleState, .error msgBadId)) ∧
     (validateReservationId "ID 1A" = true →
      (∀ r ∈ sampleState.reservations, ¬(r.id = "ID 1A" ∧ r.customerName = "Alice")) →
      cancelReservation sampleState "ID 1A" "Alice" = (sampleState, .error msgNoCancel)) ∧
     (∀ r0 : Reservation, findRes sampleState.reservations "ID 1A" "Alice" = some r0 →
      validateReservationId "ID 1A" = true →
      (cancelReservation sampleState "ID 1A" "Alice").1.tables =
        sampleState.tables.set r0.tableNumber.toNat true ∧
      (cancelReservation sampleState "ID 1A" "Alice").1.reservations.length + 1 =
        sampleState.reservations.length ∧
      countAvail (cancelReservation sampleState "ID 1A" "Alice").1.tables =
        countAvail sampleState.tables + 1)) :=
  ⟨by decide, C3_cancelReservation_spec sampleState (by decide) "ID 1A" "Alice"⟩

/-- **C4**: every failing Reservation Store operation leaves the
table bitmap, the reservation list and the id counter exactly as they
were before the call; the release/claim sequence of the table
reassignment in `updateReservation` restores the old slot before
signalling, so it too leaves the state unchanged. -/
theorem C4_failure_frame (s : ManagerState) (hInv : Inv s) :
    (∀ (cn ph : String) (ps : Int) (d t : String) (tn : Int),
      isErr (reserveTable s cn ph ps d t tn).2 = true →
        (reserveTable s cn ph ps d t tn).1 = s) ∧
    (∀ rid name : String,
      isErr (cancelReservation s rid name).2 = true →
        (cancelReservation s rid name).1 = s) ∧
    (∀ (rid name nid nname nphone : String) (nps : Int) (nd nt : String) (nti : Int),
      isErr (updateReservation s rid name nid nname nphone nps nd nt nti).2 = true →
        (updateReservation s rid name nid nname nphone nps nd nt nti).1 = s) :=
  ⟨fun cn ph ps d t tn => reserveTable_err s cn ph ps d t tn,
   fun rid name => cancelReservation_err s rid name,
   fun rid name nid nname nphone nps nd nt nti he =>
     updateReservation_err s rid name nid nname nphone nps nd nt nti hInv he⟩

/-- Witness for C4 at a concrete input. -/
theorem C4_witness :
    Inv sampleState ∧
    isErr (reserveTable sampleState "Bob" "bad-phone" 1 "2025-05-20" "10:00" 1).2 = true ∧
    (reserveTable sampleState "Bob" "bad-phone" 1 "2025-05-20" "10:00" 1).1 = sampleState :=
  ⟨by decide, by decide,
   (C4_failure_frame sampleState (by decide)).1 "Bob" "bad-phone" 1 "2025-05-20" "10:00" 1
     (by decide)⟩

/-- **C5**: an `updateReservation` call whose new table index equals
the reservation's current table (all other supplied fields valid or
left at their sentinels) succeeds — the reservation's own slot counts
as available to itself, so no `TableUnavailable` error is reported —
and the occupancy bitmap is unchanged by the call. -/
theorem C5_update_self_table (s : ManagerState) (hInv : Inv s)
    (rid name nid nname nphone : String) (nps : Int) (nd nt : String) (r0 : Reservation)
    (hv : validateReservationId rid = true)
    (hf : findRes s.reservations rid name = some r0)
    (hId : nid ≠ "0" → validateReservationId nid = true ∧
      reservationIdExists s.reservations nid rid = false)
    (hPh : nphone ≠ "0" → validatePhoneNumber nphone = true)
    (hPs : nps ≠ 0 → validatePartySize nps = true)
    (hDt : nd ≠ "0" → validateDate nd = true)
    (hTm : nt ≠ "0" → validateTime nt (if nd != "0" then nd else CURRENT_DATE) = true) :
    (updateReservation s rid name nid nname nphone nps nd nt r0.tableNumber).2 = .ok () ∧
    (updateReservation s rid name nid nname nphone nps nd nt r0.tableNumber).1.tables =
      s.tables := by
  have g1 : (nid != "0" && !validateReservationId nid) = false := by
    cases hn : (nid != "0")
    · simp
    · have := hId (by simpa using hn)
      simp [this.1]
  have g2 : (nid != "0" && reservationIdExists s.reservations nid rid) = false := by
    cases hn : (nid != "0")
    · simp
    · have := hId (by simpa using hn)
      simp [this.2]
  have g3 : (nphone != "0" && !validatePhoneNumber nphone) = false := by
    cases hn : (nphone != "0")
    · simp
    · have := hPh (by simpa using hn)
      simp [this]
  have g4 : (nps != 0 && !validatePartySize nps) = false := by
    cases hn : (nps != 0)
    · simp
    · have := hPs (by simpa using hn)
      simp [this]
  have g5 : (nd != "0" && !validateDate nd) = false := by
    cases hn : (nd != "0")
    · simp
    · have := hDt (by simpa using hn)
      simp [this]
  have g6 : (nt != "0" && !validateTime nt (if nd != "0" then nd else CURRENT_DATE)) = false := by
    cases hn : (nt != "0")
    · simp
    · have h := hTm (by simpa using hn)
      rw [h]
      rfl
  obtain ⟨h0t, hltt⟩ := hInv.2.2.2.2 r0 (findRes_mem hf)
  have hocc := inv_table_occupied s hInv r0 (findRes_mem hf)
  have hne : r0.tableNumber ≠ -1 := by omega
  have hclaim : (s.tables.set r0.tableNumber.toNat true).getD r0.tableNumber.toNat false
      = true :=
    getD_set_eq s.tables r0.tableNumber.toNat true false (by omega)
  rw [updateReservation_ok_move s rid name nid nname nphone nps nd nt r0.tableNumber r0
    hv hf g1 g2 g3 g4 g5 g6 hne h0t hltt hclaim]
  refine ⟨rfl, ?_⟩
  show (s.tables.set r0.tableNumber.toNat true).set r0.tableNumber.toNat false = s.tables
  rw [List.set_set, set_getD_self _ _ _ false hocc]

/-- Witness for C5 at a concrete input. -/
theorem C5_witness :
    Inv sampleState ∧
    ((updateReservation sampleState "ID 1A" "Alice" "0" "0" "0" 0 "0" "0" 0).2 = .ok () ∧
     (updateReservation sampleState "ID 1A" "Alice" "0" "0" "0" 0 "0" "0" 0).1.tables =
       sampleState.tables) :=
  ⟨by decide,
   C5_update_self_table sampleState (by decide) "ID 1A" "Alice" "0" "0" "0" 0 "0" "0"
     ⟨"ID 1A", "Alice", "123-456-7890", 2, "2025-05-20", "10:00", 0⟩
     (by decide) (by decide)
     (fun h => absurd rfl h) (fun h => absurd rfl h) (fun h => absurd rfl h)
     (fun h => absurd rfl h) (fun h => absurd rfl h)⟩

/-- **C1**: after every sequence of Reservation Store operations from
the initial state, a table is available iff no active reservation
references it, and no two active reservations share a table. -/
theorem C1_table_accounting (ops : List Op) :
    (∀ T < (applyOps ops).tables.length,
      ((applyOps ops).tables.getD T false = true ↔
        ¬∃ r ∈ (applyOps ops).reservations, r.tableNumber = (T : Int))) ∧
    List.Pairwise (fun a b : Reservation => a.tableNumber ≠ b.tableNumber)
      (applyOps ops).reservations := by
  obtain ⟨-, h2, h3, -, -⟩ := inv_applyOps ops
  refine ⟨?_, h3⟩
  intro T hT
  rw [h2 T hT]
  constructor
  · rintro h ⟨r, hr, heq⟩
    exact h r hr heq
  · intro h r hr heq
    exact h ⟨r, hr, heq⟩

/-- **C7**: after every sequence of operations no two active
reservations share an identifier; the generation loop always produces
an id accepted by `validateReservationId`, strictly advances the
counter, and retries past collisions so that the returned id collides
with no active reservation id. -/
theorem C7_identifier_generation :
    (∀ ops : List Op,
      List.Pairwise (fun a b : Reservation => a.id ≠ b.id) (applyOps ops).reservations) ∧
    (∀ (l : List Reservation) (counter : Nat),
      validateReservationId (genId l counter).1 = true ∧
      counter < (genId l counter).2 ∧
      (∀ r ∈ l, r.id ≠ (genId l counter).1)) := by
  constructor
  · intro ops
    exact (inv_applyOps ops).2.2.2.1
  · intro l counter
    obtain ⟨m, hm1, hm2, hm3⟩ := genId_spec l counter
    rw [hm2]
    exact ⟨mkId_valid m, by omega, hm3⟩

/-- Number of bitmap slots whose value differs between two occupancy
vectors. -/
def changedSlots (l₁ l₂ : List Bool) : Nat :=
  (List.zipWith (fun a b => decide (a ≠ b)) l₁ l₂).count true

/-- With every field at its sentinel, the update loop only rewrites
the table number. -/
theorem applyFieldUpdate_sentinels (r : Reservation) (ft : Int) :
    applyFieldUpdate r "0" "0" "0" 0 "0" "0" ft = { r with tableNumber := ft } := by
  simp [applyFieldUpdate]

/-- **C6** (counterexample): a successful table-only update that moves
a reservation from table 0 to table 1 changes the occupancy of two
slots, not exactly one as the claim states. -/
theorem C6_counterexample_two_slots :
    (updateReservation sampleState "ID 1A" "Alice" "0" "0" "0" 0 "0" "0" 1).2 = .ok () ∧
    changedSlots sampleState.tables
      (updateReservation sampleState "ID 1A" "Alice" "0" "0" "0" 0 "0" "0" 1).1.tables = 2 := by
  decide

/-- **C6** (amended): a successful `updateReservation` supplying only
a new table index (all other fields at their sentinels) rewrites
exactly the matched record and only its `tableNumber` field, leaving
id, customer name, phone, party size, date and time unchanged; the
occupancy bitmap is unchanged when the new index is the sentinel `-1`
or equals the reservation's current table, and otherwise changes at
exactly the two slots involved: the old table and the new one. -/
theorem C6_update_table_only (s : ManagerState) (hInv : Inv s) (rid name : String)
    (nti : Int) (r0 : Reservation)
    (hv : validateReservationId rid = true)
    (hf : findRes s.reservations rid name = some r0)
    (hT : nti = -1 ∨ (0 ≤ nti ∧ nti < (s.tables.length : Int) ∧
      (nti = r0.tableNumber ∨ s.tables.getD nti.toNat false = true))) :
    ∃ l₁ l₂,
      s.reservations = l₁ ++ r0 :: l₂ ∧
      (updateReservation s rid name "0" "0" "0" 0 "0" "0" nti).2 = .ok () ∧
      (updateReservation s rid name "0" "0" "0" 0 "0" "0" nti).1.reservations =
        l₁ ++ { r0 with tableNumber := if nti = -1 then r0.tableNumber else nti } :: l₂ ∧
      ((nti = -1 ∨ nti = r0.tableNumber) →
        (updateReservation s rid name "0" "0" "0" 0 "0" "0" nti).1.tables = s.tables) ∧
      (nti ≠ -1 → nti ≠ r0.tableNumber →
        ∀ T < s.tables.length,
          ((updateReservation s rid name "0" "0" "0" 0 "0" "0" nti).1.tables.getD T false
              ≠ s.tables.getD T false ↔ (T = r0.tableNumber.toNat ∨ T = nti.toNat))) := by
  obtain ⟨l₁, l₂, hl, h1, h0⟩ := findRes_decomp hf
  have g1 : (("0" : String) != "0" && !validateReservationId "0") = false := by decide
  have g2 : (("0" : String) != "0" && reservationIdExists s.reservations "0" rid) = false := by
    simp
  have g3 : (("0" : String) != "0" && !validatePhoneNumber "0") = false := by decide
  have g4 : ((0 : Int) != 0 && !validatePartySize 0) = false := by decide
  have g5 : (("0" : String) != "0" && !validateDate "0") = false := by decide
  have g6 : (("0" : String) != "0" &&
      !validateTime "0" (if ("0" : String) != "0" then "0" else CURRENT_DATE)) = false := by
    decide
  have hdecomp : ∀ ft : Int, updateFirst s.reservations rid name
      (fun r => applyFieldUpdate r "0" "0" "0" 0 "0" "0" ft)
      = l₁ ++ { r0 with tableNumber := ft } :: l₂ := by
    intro ft
    rw [hl, updateFirst_decomp l₁ r0 l₂ rid name _ h1 h0, applyFieldUpdate_sentinels]
  obtain ⟨h0t, hltt⟩ := hInv.2.2.2.2 r0 (findRes_mem hf)
  have hocc := inv_table_occupied s hInv r0 (findRes_mem hf)
  refine ⟨l₁, l₂, hl, ?_⟩
  by_cases hne : nti = -1
  · subst hne
    rw [updateReservation_ok_keep s rid name "0" "0" "0" 0 "0" "0" r0 hv hf g1 g2 g3 g4 g5 g6]
    refine ⟨rfl, ?_, fun _ => rfl, fun h _ => absurd rfl h⟩
    show updateFirst s.reservations rid name _ = _
    rw [hdecomp r0.tableNumber]
    simp
  · rcases hT with h | ⟨h5, h6, hAvail⟩
    · exact absurd h hne
    by_cases hEq : nti = r0.tableNumber
    · have hclaim : (s.tables.set r0.tableNumber.toNat true).getD nti.toNat false = true := by
        rw [show nti.toNat = r0.tableNumber.toNat by omega]
        exact getD_set_eq s.tables r0.tableNumber.toNat true false (by omega)
      rw [updateReservation_ok_move s rid name "0" "0" "0" 0 "0" "0" nti r0
        hv hf g1 g2 g3 g4 g5 g6 hne h5 h6 hclaim]
      refine ⟨rfl, ?_, ?_, fun _ h => absurd hEq h⟩
      · show updateFirst s.reservations rid name _ = _
        rw [hdecomp nti]
        simp [hne]
      · intro _
        show (s.tables.set r0.tableNumber.toNat true).set nti.toNat false = s.tables
        rw [show nti.toNat = r0.tableNumber.toNat by omega, List.set_set,
          set_getD_self _ _ _ false hocc]
    · have hA : s.tables.getD nti.toNat false = true := by
        rcases hAvail with h | h
        · exact absurd h hEq
        · exact h
      have hkk : r0.tableNumber.toNat ≠ nti.toNat := by omega
      have hclaim : (s.tables.set r0.tableNumber.toNat true).getD nti.toNat false = true := by
        rw [getD_set_ne _ _ _ _ _ hkk]
        exact hA
      rw [updateReservation_ok_move s rid name "0" "0" "0" 0 "0" "0" nti r0
        hv hf g1 g2 g3 g4 g5 g6 hne h5 h6 hclaim]
      refine ⟨rfl, ?_, ?_, ?_⟩
      · show updateFirst s.reservations rid name _ = _
        rw [hdecomp nti]
        simp [hne]
      · rintro (h | h)
        · exact absurd h hne
        · exact absurd h hEq
      · intro _ _ T hT
        show ((s.tables.set r0.tableNumber.toNat true).set nti.toNat false).getD T false
            ≠ s.tables.getD T false ↔ _
        by_cases hTn : T = nti.toNat
        · subst hTn
          rw [getD_set_eq _ _ _ _ (by simpa using (by omega : nti.toNat < s.tables.length))]
          rw [hA]
          simp
        · rw [getD_set_ne _ _ _ _ _ (fun he => hTn he.symm)]
          by_cases hTo : T = r0.tableNumber.toNat
          · subst hTo
            rw [getD_set_eq _ _ _ _ (by omega)]
            rw [hocc]
            simp
          · rw [getD_set_ne _ _ _ _ _ (fun he => hTo he.symm)]
            simp [hTo, hTn]

/-- Witness for the amended C6 at a concrete input. -/
theorem C6_witness :
    Inv sampleState ∧
    (∃ l₁ l₂,
      sampleState.reservations =
        l₁ ++ (⟨"ID 1A", "Alice", "123-456-7890", 2, "2025-05-20", "10:00", 0⟩ : Reservation)
          :: l₂ ∧
      (updateReservation sampleState "ID 1A" "Alice" "0" "0" "0" 0 "0" "0" 1).2 = .ok () ∧
      (updateReservation sampleState "ID 1A" "Alice" "0" "0" "0" 0 "0" "0" 1).1.reservations =
        l₁ ++ { (⟨"ID 1A", "Alice", "123-456-7890", 2, "2025-05-20", "10:00", 0⟩ : Reservation)
          with tableNumber :=
            if (1 : Int) = -1 then
              (⟨"ID 1A", "Alice", "123-456-7890", 2, "2025-05-20", "10:00", 0⟩ :
                Reservation).tableNumber
            else 1 } :: l₂ ∧
      (((1 : Int) = -1 ∨ (1 : Int) =
          (⟨"ID 1A", "Alice", "123-456-7890", 2, "2025-05-20", "10:00", 0⟩ :
            Reservation).tableNumber) →
        (updateReservation sampleState "ID 1A" "Alice" "0" "0" "0" 0 "0" "0" 1).1.tables =
          sampleState.tables) ∧
      ((1 : Int) ≠ -1 → (1 : Int) ≠
          (⟨"ID 1A", "Alice", "123-456-7890", 2, "2025-05-20", "10:00", 0⟩ :
            Reservation).tableNumber →
        ∀ T < sampleState.tables.length,
          ((updateReservation sampleState "ID 1A" "Alice" "0" "0" "0" 0 "0" "0" 1).1.tables.getD
              T false ≠ sampleState.tables.getD T false ↔
            (T = (⟨"ID 1A", "Alice", "123-456-7890", 2, "2025-05-20", "10:00", 0⟩ :
              Reservation).tableNumber.toNat ∨ T = (1 : Int).toNat)))) :=
  ⟨by decide,
   C6_update_table_only sampleState (by decide) "ID 1A" "Alice" 1
     ⟨"ID 1A", "Alice", "123-456-7890", 2, "2025-05-20", "10:00", 0⟩
     (by decide) (by decide) (by decide)⟩

end Finals
